import Mathlib

/-!
Shallow embedding of the Overslight/auth credential core.

The database state (Postgres tables declared in `src/auth/src/schema.rs`) is
modelled as lists of rows; each operation of the Rust source becomes a Lean
function `Db → (Except AuthError α) × Db` where a returned error means the
enclosing transaction rolled back, i.e. the returned `Db` is unchanged.
Timestamps (`Utc::now()`), fresh UUIDs (`Uuid::new_v4()`) and the argon2
hash/verify capability are passed in explicitly or modelled abstractly, as
the spec declares them external collaborators.
-/

namespace Overslight

/-- UUIDs are opaque identifiers; modelled as naturals. -/
abbrev Uuid := Nat

/-- `chrono::NaiveDateTime`; modelled as naturals. -/
abbrev Timestamp := Nat

/-- Row of the `users` table (`src/auth/src/user.rs`, struct `User`).
The nullable `metadata` column is not read anywhere in the core. -/
structure User where
  uid : Uuid
deriving DecidableEq, Repr

/-- Row of the `email_password_credentials` table per `schema.rs`.
Note: the table has a `disabled` column, but the Rust struct `EmailPassword`
(`src/auth/src/credential/email_password.rs`) does not select it and no
email/password code path ever reads it. -/
structure EmailPassword where
  cid : Uuid
  uid : Uuid
  email : String
  password : String
  verified : Bool
  disabled : Bool
  last_update : Timestamp
  last_authentication : Timestamp
  created : Timestamp
deriving DecidableEq, Repr

/-- Row of the `username_password_credentials` table per `schema.rs`.
As with email/password, the `disabled` column exists in the table but is
never selected or checked by `src/auth/src/credential/username_password.rs`. -/
structure UsernamePassword where
  cid : Uuid
  uid : Uuid
  username : String
  password : String
  verified : Bool
  disabled : Bool
  last_update : Timestamp
  last_authentication : Timestamp
  created : Timestamp
deriving DecidableEq, Repr

/-- Row of the `github_oauth_credentials` table
(`src/auth/src/credential/github.rs`, struct `GithubOauth`). -/
structure GithubOauth where
  cid : Uuid
  uid : Uuid
  provider_id : Int
  username : String
  last_authentication : Timestamp
  last_update : Timestamp
  created : Timestamp
  disabled : Bool
deriving DecidableEq, Repr

/-- Row of the `credentials` table (`src/auth/src/credential.rs`,
struct `CredentialLookup`): one row per user, one nullable credential-id
slot per exclusive credential kind. -/
structure CredentialLookup where
  uid : Uuid
  email_password : Option Uuid
  github_oauth : Option Uuid
  username_password : Option Uuid
deriving DecidableEq, Repr

/-- The whole database: the four tables of `schema.rs` that the core touches. -/
structure Db where
  users : List User
  credentials : List CredentialLookup
  email_password_credentials : List EmailPassword
  github_oauth_credentials : List GithubOauth
  username_password_credentials : List UsernamePassword
deriving DecidableEq, Repr

/-- `AuthError` from `src/auth/src/error.rs`. The `CredentialDisabled`
variant is referenced by `src/auth/src/credential/github.rs` (the shipped
`error.rs` snapshot lags behind that file), so it is included here. -/
inductive AuthError where
  | Invalid (msg : String)
  | Exists (msg : String)
  | NotFound (msg : String)
  | Hash
  | CredentialCannotDelete
  | CredentialDisabled
  | Database
  | Unknown (msg : String)
deriving DecidableEq, Repr

/-- Message attached by `impl From<diesel::result::Error> for AuthError`
to `diesel::result::Error::NotFound` (`src/auth/src/error.rs` line 33). -/
def dieselNotFoundMsg : String := "The resource couldn\x27t be found or doesn\x27t exist!"

/-- Stand-in for the database-generated unique-violation message surfaced
through `AuthError::Exists` (`src/auth/src/error.rs` line 36). -/
def uniqueViolationMsg : String := "duplicate key value violates unique constraint"

/-- `ApiErrorType` from `src/api/src/error.rs`. -/
inductive ApiErrorType where
  | IncorrectCredential
  | IncorrectOauthCode
  | UserNotFound
  | UserDisabled
  | UserExists
  | UserAuthenticated
  | CredentialAssociated
  | CredentialCannotRemove
  | ResourceNotFound
  | Unknown (msg : String)
deriving DecidableEq, Repr

/-- `impl From<auth::error::AuthError> for ApiErrorType`
(`src/api/src/error.rs` lines 108-122). The source match does not name a
`CredentialDisabled` arm (its `AuthError` snapshot predates that variant);
it is sent to the catch-all `Unknown` branch here. -/
def ApiErrorType.fromAuthError : AuthError → ApiErrorType
  | .NotFound _ => .UserNotFound
  | .Exists _ => .UserExists
  | .Invalid _ => .Unknown "Invalid?"
  | .CredentialCannotDelete => .CredentialCannotRemove
  | .Database => .Unknown "Something went wrong!"
  | .Hash => .Unknown "Something went wrong!"
  | .Unknown _ => .Unknown "Something went wrong!"
  | .CredentialDisabled => .Unknown "Something went wrong!"

/-- ASCII lower-casing of one character, for the citext model. -/
def charLower (c : Char) : Char :=
  if c.isUpper then Char.ofNat (c.toNat + 32) else c

/-- ASCII lower-casing of a string, for the citext model. -/
def stringLower (s : String) : String := String.mk (s.data.map charLower)

/-- The `email` column is `Citext`: Postgres compares it case-insensitively
(modelled as ASCII case-folding). -/
def citextEq (a b : String) : Bool := stringLower a == stringLower b

/-- Abstract password-hash capability (spec section 6): `hash(plaintext)`.
Salting and hash internals are out of scope; the model only needs that
verification succeeds exactly for the hashed plaintext. -/
def argon2_hash (plain : String) : String := "argon2id$" ++ plain

/-- Abstract password-hash capability: `verify(plaintext, opaque_hash)`. -/
def argon2_verify (plain hashed : String) : Bool := hashed == argon2_hash plain

/-- `CredentialLookup::has_multiple_credentials` (`src/auth/src/credential.rs`
lines 82-87): count of populated slots, compared against 1. -/
def CredentialLookup.has_multiple_credentials (l : CredentialLookup) : Bool :=
  l.email_password.isSome.toNat + l.github_oauth.isSome.toNat
    + l.username_password.isSome.toNat > 1

/-- `CredentialLookup::get_by_uid` (`src/auth/src/credential.rs` lines 89-95):
primary-key lookup on the `credentials` table; diesel `NotFound` is mapped
through `AuthError::from`. -/
def CredentialLookup.get_by_uid (db : Db) (query_uid : Uuid) :
    Except AuthError CredentialLookup :=
  match db.credentials.find? (fun l => l.uid == query_uid) with
  | some l => .ok l
  | none => .error (.NotFound dieselNotFoundMsg)

/-- `User::get_by_uid` (`src/auth/src/user.rs` lines 27-33). -/
def User.get_by_uid (db : Db) (query_uid : Uuid) : Except AuthError User :=
  match db.users.find? (fun u => u.uid == query_uid) with
  | some u => .ok u
  | none => .error (.NotFound dieselNotFoundMsg)

/-- `User::credentials` (`src/auth/src/user.rs` lines 35-37). -/
def User.credentials (self : User) (db : Db) : Except AuthError CredentialLookup :=
  CredentialLookup.get_by_uid db self.uid

/-- `PartialEmailPassword` (`src/auth/src/credential/email_password.rs`):
unauthenticated email + plaintext password submitted by a caller. -/
structure PartialEmailPassword where
  email : String
  password : String
deriving DecidableEq, Repr

/-- `PartialUsernamePassword` (`src/auth/src/credential/username_password.rs`). -/
structure PartialUsernamePassword where
  username : String
  password : String
deriving DecidableEq, Repr

/-- `PartialGithubOauth` (`src/auth/src/credential/github.rs`): provider
account id and login already obtained from the provider exchange. -/
structure PartialGithubOauth where
  provider_id : Int
  username : String
deriving DecidableEq, Repr

/-- `EmailPassword::get_by_email` (`email_password.rs` lines 122-132):
filter on the citext `email` column, `first` row or diesel `NotFound`.
No `disabled` check is performed here. -/
def EmailPassword.get_by_email (db : Db) (query_email : String) :
    Except AuthError EmailPassword :=
  match db.email_password_credentials.find? (fun r => citextEq r.email query_email) with
  | some r => .ok r
  | none => .error (.NotFound dieselNotFoundMsg)

/-- `UsernamePassword::get_by_username` (`username_password.rs` lines 123-133). -/
def UsernamePassword.get_by_username (db : Db) (query_username : String) :
    Except AuthError UsernamePassword :=
  match db.username_password_credentials.find? (fun r => r.username == query_username) with
  | some r => .ok r
  | none => .error (.NotFound dieselNotFoundMsg)

/-- `GithubOauth::get_by_provider_id` (`github.rs` lines 120-137): filter on
`provider_id`, `first` row or diesel `NotFound`, then reject disabled rows. -/
def GithubOauth.get_by_provider_id (db : Db) (query_provider_id : Int) :
    Except AuthError GithubOauth :=
  match db.github_oauth_credentials.find? (fun r => r.provider_id == query_provider_id) with
  | none => .error (.NotFound dieselNotFoundMsg)
  | some credential =>
    if credential.disabled then .error .CredentialDisabled else .ok credential

/-- `PartialCredential::authenticate` for `PartialEmailPassword`
(`email_password.rs` lines 32-46): look the row up by email, verify the
argon2 hash, return the row on success or `NotFound` on mismatch. The
database is not modified and the row's `disabled` column is never read. -/
def PartialEmailPassword.authenticate (self : PartialEmailPassword) (db : Db) :
    (Except AuthError EmailPassword) × Db :=
  match EmailPassword.get_by_email db self.email with
  | .error e => (.error e, db)
  | .ok credential =>
    if argon2_verify self.password credential.password then
      (.ok credential, db)
    else
      (.error (.NotFound "Incorrect email or password!"), db)

/-- `PartialCredential::authenticate` for `PartialUsernamePassword`
(`username_password.rs` lines 32-46); same shape as the email variant. -/
def PartialUsernamePassword.authenticate (self : PartialUsernamePassword) (db : Db) :
    (Except AuthError UsernamePassword) × Db :=
  match UsernamePassword.get_by_username db self.username with
  | .error e => (.error e, db)
  | .ok credential =>
    if argon2_verify self.password credential.password then
      (.ok credential, db)
    else
      (.error (.NotFound "Incorrect username or password!"), db)

/-- `PartialCredential::authenticate` for `PartialGithubOauth`
(`github.rs` lines 35-45): look up by provider id, reject disabled, then
`set_last_authentication` writes the row back with the current time. -/
def PartialGithubOauth.authenticate (self : PartialGithubOauth) (db : Db)
    (now : Timestamp) : (Except AuthError GithubOauth) × Db :=
  match GithubOauth.get_by_provider_id db self.provider_id with
  | .error e => (.error e, db)
  | .ok credential =>
    if credential.disabled then (.error .CredentialDisabled, db)
    else
      let updated := { credential with last_authentication := now }
      (.ok updated,
        { db with github_oauth_credentials :=
            db.github_oauth_credentials.map (fun r =>
              if r.cid == updated.cid then updated else r) })

/-- `PartialCredential::associate` for `PartialEmailPassword`
(`email_password.rs` lines 48-90): hash the password, insert the credential
row (unique constraints: `cid` primary key, citext `email` unique), then
upsert the `credentials` lookup row `on_conflict(uid) do_update
set(email_password = cid)`. One transaction: any failure rolls back.
The source's insert branch initialises the other slots to null (its
`InsertableCredentialLookup` literal names no other populated slot). -/
def PartialEmailPassword.associate (self : PartialEmailPassword) (db : Db)
    (owner_uid : Uuid) (fresh_cid : Uuid) (now : Timestamp) :
    (Except AuthError EmailPassword) × Db :=
  let credential : EmailPassword :=
    { cid := fresh_cid, uid := owner_uid, email := self.email,
      password := argon2_hash self.password, verified := false, disabled := false,
      last_update := now, last_authentication := now, created := now }
  if db.email_password_credentials.any
      (fun r => r.cid == fresh_cid || citextEq r.email self.email) then
    (.error (.Exists uniqueViolationMsg), db)
  else
    let db1 := { db with email_password_credentials :=
      db.email_password_credentials ++ [credential] }
    if db1.credentials.any (fun l => l.uid == owner_uid) then
      let updated := db1.credentials.map (fun l =>
        if l.uid == owner_uid then { l with email_password := some fresh_cid } else l)
      (.ok credential, { db1 with credentials := updated })
    else
      (.ok credential, { db1 with credentials := db1.credentials ++
        [{ uid := owner_uid, email_password := some fresh_cid,
           github_oauth := none, username_password := none }] })

/-- `PartialCredential::associate` for `PartialUsernamePassword`
(`username_password.rs` lines 48-92); mirror of the email variant over the
`username_password` slot (`username` compared exactly, the column is Text). -/
def PartialUsernamePassword.associate (self : PartialUsernamePassword) (db : Db)
    (owner_uid : Uuid) (fresh_cid : Uuid) (now : Timestamp) :
    (Except AuthError UsernamePassword) × Db :=
  let credential : UsernamePassword :=
    { cid := fresh_cid, uid := owner_uid, username := self.username,
      password := argon2_hash self.password, verified := false, disabled := false,
      last_update := now, last_authentication := now, created := now }
  if db.username_password_credentials.any
      (fun r => r.cid == fresh_cid || r.username == self.username) then
    (.error (.Exists uniqueViolationMsg), db)
  else
    let db1 := { db with username_password_credentials :=
      db.username_password_credentials ++ [credential] }
    if db1.credentials.any (fun l => l.uid == owner_uid) then
      let updated := db1.credentials.map (fun l =>
        if l.uid == owner_uid then { l with username_password := some fresh_cid } else l)
      (.ok credential, { db1 with credentials := updated })
    else
      (.ok credential, { db1 with credentials := db1.credentials ++
        [{ uid := owner_uid, email_password := none,
           github_oauth := none, username_password := some fresh_cid }] })

/-- `PartialCredential::associate` for `PartialGithubOauth`
(`github.rs` lines 47-87): insert the credential row (unique constraints:
`cid` primary key, `provider_id` unique), then upsert the lookup row
`on_conflict(uid) do_update set(github_oauth = cid)`. -/
def PartialGithubOauth.associate (self : PartialGithubOauth) (db : Db)
    (owner_uid : Uuid) (fresh_cid : Uuid) (now : Timestamp) :
    (Except AuthError GithubOauth) × Db :=
  let credential : GithubOauth :=
    { cid := fresh_cid, uid := owner_uid, provider_id := self.provider_id,
      username := self.username, last_authentication := now, last_update := now,
      created := now, disabled := false }
  if db.github_oauth_credentials.any
      (fun r => r.cid == fresh_cid || r.provider_id == self.provider_id) then
    (.error (.Exists uniqueViolationMsg), db)
  else
    let db1 := { db with github_oauth_credentials :=
      db.github_oauth_credentials ++ [credential] }
    if db1.credentials.any (fun l => l.uid == owner_uid) then
      let updated := db1.credentials.map (fun l =>
        if l.uid == owner_uid then { l with github_oauth := some fresh_cid } else l)
      (.ok credential, { db1 with credentials := updated })
    else
      (.ok credential, { db1 with credentials := db1.credentials ++
        [{ uid := owner_uid, email_password := none,
           github_oauth := some fresh_cid, username_password := none }] })

/-- `Credential::delete` for `EmailPassword` (`email_password.rs` lines
171-187): one transaction that re-reads the owner's lookup row, rejects
with `CredentialCannotDelete` unless it has multiple credentials, deletes
the credential row by `cid`, and nulls every `email_password` slot equal to
that `cid`. On any error the transaction rolls back (database unchanged). -/
def EmailPassword.delete (self : EmailPassword) (db : Db) :
    (Except AuthError Unit) × Db :=
  match CredentialLookup.get_by_uid db self.uid with
  | .error e => (.error e, db)
  | .ok lookup =>
    if !lookup.has_multiple_credentials then
      (.error .CredentialCannotDelete, db)
    else
      (.ok (), { db with
        email_password_credentials :=
          db.email_password_credentials.filter (fun r => r.cid != self.cid),
        credentials :=
          db.credentials.map (fun l =>
            if l.email_password == some self.cid then
              { l with email_password := none }
            else l) })

/-- `Credential::delete` for `UsernamePassword` (`username_password.rs`
lines 172-188); mirror of the email variant over the `username_password`
slot and table. -/
def UsernamePassword.delete (self : UsernamePassword) (db : Db) :
    (Except AuthError Unit) × Db :=
  match CredentialLookup.get_by_uid db self.uid with
  | .error e => (.error e, db)
  | .ok lookup =>
    if !lookup.has_multiple_credentials then
      (.error .CredentialCannotDelete, db)
    else
      (.ok (), { db with
        username_password_credentials :=
          db.username_password_credentials.filter (fun r => r.cid != self.cid),
        credentials :=
          db.credentials.map (fun l =>
            if l.username_password == some self.cid then { l with username_password := none }
            else l) })

/-- `Credential::delete` for `GithubOauth` (`github.rs` lines 190-206);
mirror over the `github_oauth` slot and table. -/
def GithubOauth.delete (self : GithubOauth) (db : Db) :
    (Except AuthError Unit) × Db :=
  match CredentialLookup.get_by_uid db self.uid with
  | .error e => (.error e, db)
  | .ok lookup =>
    if !lookup.has_multiple_credentials then
      (.error .CredentialCannotDelete, db)
    else
      (.ok (), { db with
        github_oauth_credentials :=
          db.github_oauth_credentials.filter (fun r => r.cid != self.cid),
        credentials :=
          db.credentials.map (fun l =>
            if l.github_oauth == some self.cid then { l with github_oauth := none }
            else l) })

/-- `User::new` (`src/auth/src/user.rs` lines 39-58): one transaction that
inserts a User row with a freshly generated uid and then calls the given
credential association with that uid; any error rolls the whole transaction
back (the returned database is the input one). The association is the
generic `PartialCredential::associate` call, passed here as a function that
returns its own result and post-state. -/
def User.new {α : Type} (db : Db) (fresh_uid : Uuid)
    (associate : Db → Uuid → (Except AuthError α) × Db) :
    (Except AuthError User) × Db :=
  if db.users.any (fun u => u.uid == fresh_uid) then
    (.error (.Exists uniqueViolationMsg), db)
  else
    let user : User := { uid := fresh_uid }
    let db1 := { db with users := db.users ++ [user] }
    match associate db1 fresh_uid with
    | (.error e, _) => (.error e, db)
    | (.ok _, db2) => (.ok user, db2)

/-- `uuid::Uuid::parse_str`, modelled over the numeric Uuid embedding:
parses a digit string or fails (the failure is mapped to
`ApiErrorType::UserNotFound` by `impl From<uuid::Error> for ApiErrorType`,
`src/api/src/error.rs` 154-158). -/
def uuidParse (s : String) : Option Uuid :=
  if s.data.all Char.isDigit && !s.data.isEmpty then
    some (s.data.foldl (fun n c => n * 10 + (c.toNat - 48)) 0)
  else none

/-- `AllowAuthenticated::new` (`src/api/src/middleware/auth.rs` lines
81-101): with no session identity it succeeds carrying `None`; with an
identity present it parses the identity as a Uuid (`?` propagates a parse
failure as `UserNotFound`) and resolves the user via `User::get_by_uid`
(`?` propagates `NotFound` as `UserNotFound`). The unavailable-pool branch
is not modelled. -/
def AllowAuthenticated.new (db : Db) (identity : Option String) :
    Except ApiErrorType (Option User) :=
  match identity with
  | none => .ok none
  | some s =>
    match uuidParse s with
    | none => .error .UserNotFound
    | some target =>
      match User.get_by_uid db target with
      | .ok u => .ok (some u)
      | .error e => .error (ApiErrorType.fromAuthError e)

/-- Route `POST /email_password/associate` (`src/api/src/routes/email_password.rs`
lines 80-100), body after `RequireAuthenticated` has produced `user`: read
`user.credentials`, reject with `CredentialAssociated` if the
`email_password` slot is populated, otherwise run the association. -/
def routeEmailPasswordAssociate (db : Db) (user : User)
    (request : PartialEmailPassword) (fresh_cid : Uuid) (now : Timestamp) :
    (Except ApiErrorType Unit) × Db :=
  match user.credentials db with
  | .error e => (.error (ApiErrorType.fromAuthError e), db)
  | .ok lookup =>
    match lookup.email_password with
    | some _ => (.error .CredentialAssociated, db)
    | none =>
      match request.associate db user.uid fresh_cid now with
      | (.error e, db1) => (.error (ApiErrorType.fromAuthError e), db1)
      | (.ok _, db1) => (.ok (), db1)

/-- Route `POST /username_password/associate`
(`src/api/src/routes/username_password.rs` lines 80-100); mirror of the
email route over the `username_password` slot. -/
def routeUsernamePasswordAssociate (db : Db) (user : User)
    (request : PartialUsernamePassword) (fresh_cid : Uuid) (now : Timestamp) :
    (Except ApiErrorType Unit) × Db :=
  match user.credentials db with
  | .error e => (.error (ApiErrorType.fromAuthError e), db)
  | .ok lookup =>
    match lookup.username_password with
    | some _ => (.error .CredentialAssociated, db)
    | none =>
      match request.associate db user.uid fresh_cid now with
      | (.error e, db1) => (.error (ApiErrorType.fromAuthError e), db1)
      | (.ok _, db1) => (.ok (), db1)

/-- The `OauthCallbackAction::Associate` arm of the GitHub OAuth callback
(`src/api/src/routes/oauth/github.rs` lines 134-145): with an authenticated
user present it calls `associate` directly; unlike the email/username
routes it performs no already-associated check on the lookup slot. -/
def routeGithubCallbackAssociate (db : Db) (user : Option User)
    (p : PartialGithubOauth) (fresh_cid : Uuid) (now : Timestamp) :
    (Except ApiErrorType Unit) × Db :=
  match user with
  | none => (.error .IncorrectCredential, db)
  | some user =>
    match p.associate db user.uid fresh_cid now with
    | (.error e, db1) => (.error (ApiErrorType.fromAuthError e), db1)
    | (.ok _, db1) => (.ok (), db1)

/-- The three exclusive-slot credential kinds of the `credentials` table. -/
inductive CredKind where
  | email_password
  | github_oauth
  | username_password
deriving DecidableEq, Repr

/-- Slot of the given kind on a lookup row. -/
def CredentialLookup.getSlot (l : CredentialLookup) : CredKind → Option Uuid
  | .email_password => l.email_password
  | .github_oauth => l.github_oauth
  | .username_password => l.username_password

/-- Number of populated slots on a lookup row. -/
def slotCount (l : CredentialLookup) : Nat :=
  l.email_password.isSome.toNat + l.github_oauth.isSome.toNat
    + l.username_password.isSome.toNat

/-- A user currently has at least one active credential: their lookup row
exists and has a populated slot. -/
def userHasCredential (db : Db) (u : Uuid) : Prop :=
  ∃ l ∈ db.credentials, l.uid = u ∧ 1 ≤ slotCount l

/-- How many lookup slots of the given kind reference the credential id. -/
def referenceCount (db : Db) (k : CredKind) (c : Uuid) : Nat :=
  (db.credentials.filter (fun l => l.getSlot k == some c)).length

/-- Each populated slot of a lookup row points at a credential row that
exists in the table of the matching kind and is owned by that row's user. -/
def slotConsistent (db : Db) (l : CredentialLookup) : Prop :=
  (∀ c ∈ l.email_password,
    ∃ r ∈ db.email_password_credentials, r.cid = c ∧ r.uid = l.uid)
  ∧ (∀ c ∈ l.github_oauth,
    ∃ r ∈ db.github_oauth_credentials, r.cid = c ∧ r.uid = l.uid)
  ∧ (∀ c ∈ l.username_password,
    ∃ r ∈ db.username_password_credentials, r.cid = c ∧ r.uid = l.uid)

/-- Database well-formedness: primary keys are unique (`uid` on the lookup
table, `cid` on each credential table) and every populated lookup slot is
consistent in the sense of `slotConsistent`. -/
def WellFormed (db : Db) : Prop :=
  (db.credentials.map (fun l => l.uid)).Nodup
  ∧ (db.email_password_credentials.map (fun r => r.cid)).Nodup
  ∧ (db.github_oauth_credentials.map (fun r => r.cid)).Nodup
  ∧ (db.username_password_credentials.map (fun r => r.cid)).Nodup
  ∧ ∀ l ∈ db.credentials, slotConsistent db l

/-- One committed `delete` transaction, invoked — as the API layer does —
on a credential row read from the database. -/
inductive DeleteStep : Db → Db → Prop where
  | email (self : EmailPassword) (db db' : Db) :
      self ∈ db.email_password_credentials →
      self.delete db = (.ok (), db') → DeleteStep db db'
  | github (self : GithubOauth) (db db' : Db) :
      self ∈ db.github_oauth_credentials →
      self.delete db = (.ok (), db') → DeleteStep db db'
  | username (self : UsernamePassword) (db db' : Db) :
      self ∈ db.username_password_credentials →
      self.delete db = (.ok (), db') → DeleteStep db db'

/-- One committed transaction of the credential lifecycle on the lookup
ledger: an `associate` of any kind with arbitrary input, or a `DeleteStep`. -/
inductive AuthStep : Db → Db → Prop where
  | assoc_email (p : PartialEmailPassword) (u c : Uuid) (now : Timestamp)
      (db db' : Db) (r : EmailPassword) :
      p.associate db u c now = (.ok r, db') → AuthStep db db'
  | assoc_github (p : PartialGithubOauth) (u c : Uuid) (now : Timestamp)
      (db db' : Db) (r : GithubOauth) :
      p.associate db u c now = (.ok r, db') → AuthStep db db'
  | assoc_username (p : PartialUsernamePassword) (u c : Uuid) (now : Timestamp)
      (db db' : Db) (r : UsernamePassword) :
      p.associate db u c now = (.ok r, db') → AuthStep db db'
  | del (db db' : Db) : DeleteStep db db' → AuthStep db db'

instance (db : Db) (l : CredentialLookup) : Decidable (slotConsistent db l) := by
  unfold slotConsistent; infer_instance

instance (db : Db) : Decidable (WellFormed db) := by
  unfold WellFormed; infer_instance

instance (db : Db) (u : Uuid) : Decidable (userHasCredential db u) := by
  unfold userHasCredential; infer_instance

/-- An email/password credential row whose `disabled` column is set, with a
known password hash; used to exercise the authentication paths. -/
def c3EmailRow : EmailPassword :=
  { cid := 10, uid := 1, email := "a@b.com", password := argon2_hash "pw",
    verified := false, disabled := true,
    last_update := 0, last_authentication := 0, created := 0 }

/-- A username/password credential row whose `disabled` column is set. -/
def c3UsernameRow : UsernamePassword :=
  { cid := 11, uid := 1, username := "alice", password := argon2_hash "pw2",
    verified := false, disabled := true,
    last_update := 0, last_authentication := 0, created := 0 }

/-- A GitHub OAuth credential row whose `disabled` column is set. -/
def c3GithubRow : GithubOauth :=
  { cid := 12, uid := 1, provider_id := 42, username := "alice",
    last_authentication := 0, last_update := 0, created := 0, disabled := true }

/-- A database in which every credential of user 1 is disabled. -/
def c3Db : Db :=
  { users := [{ uid := 1 }],
    credentials := [{ uid := 1, email_password := some 10, github_oauth := some 12,
                      username_password := some 11 }],
    email_password_credentials := [c3EmailRow],
    github_oauth_credentials := [c3GithubRow],
    username_password_credentials := [c3UsernameRow] }

/-- The empty database. -/
def emptyDb : Db :=
  { users := [], credentials := [], email_password_credentials := [],
    github_oauth_credentials := [], username_password_credentials := [] }

/-- An enabled email/password row for user 1 with a known password. -/
def c6Row : EmailPassword :=
  { cid := 10, uid := 1, email := "a@b.com", password := argon2_hash "pw",
    verified := false, disabled := false,
    last_update := 0, last_authentication := 0, created := 0 }

/-- A database holding just `c6Row` and its owner. -/
def c6Db : Db :=
  { users := [{ uid := 1 }],
    credentials := [{ uid := 1, email_password := some 10, github_oauth := none,
                      username_password := none }],
    email_password_credentials := [c6Row],
    github_oauth_credentials := [],
    username_password_credentials := [] }

/-- An enabled username/password row for user 1 with a known password. -/
def c8UsernameRow : UsernamePassword :=
  { cid := 11, uid := 1, username := "alice", password := argon2_hash "pw2",
    verified := false, disabled := false,
    last_update := 0, last_authentication := 0, created := 0 }

/-- A database holding an enabled email/password and username/password row,
both with `last_authentication = 0`. -/
def c8Db : Db :=
  { users := [{ uid := 1 }],
    credentials := [{ uid := 1, email_password := some 10, github_oauth := none,
                      username_password := some 11 }],
    email_password_credentials := [c6Row],
    github_oauth_credentials := [],
    username_password_credentials := [c8UsernameRow] }

/-- An enabled GitHub OAuth row for user 1, provider account 42. -/
def c8GithubRow : GithubOauth :=
  { cid := 12, uid := 1, provider_id := 42, username := "alice",
    last_authentication := 0, last_update := 0, created := 0, disabled := false }

/-- A database holding just `c8GithubRow` and its owner. -/
def c8GithubDb : Db :=
  { users := [{ uid := 1 }],
    credentials := [{ uid := 1, email_password := none, github_oauth := some 12,
                      username_password := none }],
    email_password_credentials := [],
    github_oauth_credentials := [c8GithubRow],
    username_password_credentials := [] }

/-- The row created by associating email "b@c.com" at time 5 with cid 11. -/
def c2NewRow : EmailPassword :=
  { cid := 11, uid := 1, email := "b@c.com", password := argon2_hash "pw2",
    verified := false, disabled := false,
    last_update := 5, last_authentication := 5, created := 5 }

/-- The database after associating a second email/password credential over
user 1's already-populated slot in `c6Db`: the slot now holds cid 11 and the
old row `c6Row` (cid 10) is still stored but referenced by no slot. -/
def c2PostDb : Db :=
  { users := [{ uid := 1 }],
    credentials := [{ uid := 1, email_password := some 11, github_oauth := none,
                      username_password := none }],
    email_password_credentials := [c6Row, c2NewRow],
    github_oauth_credentials := [],
    username_password_credentials := [] }

/-- A database whose user 1 already has a GitHub credential (cid 12). -/
def c7Db : Db :=
  { users := [{ uid := 1 }],
    credentials := [{ uid := 1, email_password := none, github_oauth := some 12,
                      username_password := none }],
    email_password_credentials := [],
    github_oauth_credentials := [c8GithubRow],
    username_password_credentials := [] }

/-- The GitHub row created by the second association (provider account 43). -/
def c7NewRow : GithubOauth :=
  { cid := 13, uid := 1, provider_id := 43, username := "bob",
    last_authentication := 5, last_update := 5, created := 5, disabled := false }

/-- The database after the GitHub callback associate arm ran on `c7Db` even
though the slot was populated: the slot now holds cid 13 and row 12 is
orphaned. -/
def c7PostDb : Db :=
  { users := [{ uid := 1 }],
    credentials := [{ uid := 1, email_password := none, github_oauth := some 13,
                      username_password := none }],
    email_password_credentials := [],
    github_oauth_credentials := [c8GithubRow, c7NewRow],
    username_password_credentials := [] }

/-- A database whose user 1 has an email/password (cid 10) and a GitHub
credential (cid 12). -/
def c10Db : Db :=
  { users := [{ uid := 1 }],
    credentials := [{ uid := 1, email_password := some 10, github_oauth := some 12,
                      username_password := none }],
    email_password_credentials := [c6Row],
    github_oauth_credentials := [c8GithubRow],
    username_password_credentials := [] }

/-- `c10Db` after deleting the email/password credential: only the matching
slot was nulled, the GitHub slot and its row are untouched, and the lookup
row itself survives. -/
def c10PostDb : Db :=
  { users := [{ uid := 1 }],
    credentials := [{ uid := 1, email_password := none, github_oauth := some 12,
                      username_password := none }],
    email_password_credentials := [],
    github_oauth_credentials := [c8GithubRow],
    username_password_credentials := [] }

/-- Inversion of a successful `GithubOauth::get_by_provider_id`: the returned
row is a stored row and is not disabled. -/
theorem GithubOauth.get_by_provider_id_ok (db : Db) (pid : Int) (r : GithubOauth)
    (h : GithubOauth.get_by_provider_id db pid = .ok r) :
    r ∈ db.github_oauth_credentials ∧ r.disabled = false := by
  unfold GithubOauth.get_by_provider_id at h
  rcases hf : db.github_oauth_credentials.find? (fun x => x.provider_id == pid) with _ | x <;>
    rw [hf] at h
  · exact absurd h (by simp)
  · by_cases hd : x.disabled <;> simp [hd] at h
    subst h
    exact ⟨List.mem_of_find?_eq_some hf, by simpa using hd⟩

/-- Claim C4: `CredentialLookup::has_multiple_credentials` is a pure function
of the lookup record that returns true exactly when at least two of the three
slots (email_password, github_oauth, username_password) are non-null. -/
theorem claim4_has_multiple_credentials_iff (l : CredentialLookup) :
    l.has_multiple_credentials = true ↔
      2 ≤ [l.email_password.isSome, l.github_oauth.isSome,
           l.username_password.isSome].count true := by
  rcases l with ⟨u, e, g, p⟩
  cases e <;> cases g <;> cases p <;>
    simp [CredentialLookup.has_multiple_credentials, List.count, List.countP] <;> decide

/-- Claim C3 (code bug): the `email_password_credentials` and
`username_password_credentials` tables carry a `disabled` column, yet their
`authenticate` paths never read it, so a disabled credential with the correct
secret authenticates successfully; only the GitHub variant rejects disabled
rows with `CredentialDisabled`. -/
theorem claim3_disabled_still_authenticates :
    c3EmailRow.disabled = true
    ∧ (PartialEmailPassword.authenticate
        { email := "a@b.com", password := "pw" } c3Db).1 = .ok c3EmailRow
    ∧ c3UsernameRow.disabled = true
    ∧ (PartialUsernamePassword.authenticate
        { username := "alice", password := "pw2" } c3Db).1 = .ok c3UsernameRow
    ∧ c3GithubRow.disabled = true
    ∧ (PartialGithubOauth.authenticate
        { provider_id := 42, username := "alice" } c3Db 7).1
          = .error .CredentialDisabled :=
  ⟨rfl, rfl, rfl, rfl, rfl, rfl⟩

/-- Claim C6 counterexample: the run with no matching email row and the run
with a matching row but a wrong password both fail with the `NotFound` kind,
but with two different observable messages at the auth layer. -/
theorem claim6_counterexample :
    (PartialEmailPassword.authenticate
      { email := "a@b.com", password := "pw" } emptyDb).1
        = .error (.NotFound dieselNotFoundMsg)
    ∧ (PartialEmailPassword.authenticate
        { email := "a@b.com", password := "wrong" } c6Db).1
          = .error (.NotFound "Incorrect email or password!")
    ∧ dieselNotFoundMsg ≠ "Incorrect email or password!" :=
  ⟨rfl, rfl, by decide⟩

/-- Claim C6 (amended): every failure of password authentication — missing
natural key or secret mismatch — is of the `NotFound` kind, and the API
boundary (`From<AuthError> for ApiErrorType`) collapses both to the single
`UserNotFound` error, though the auth-layer messages differ between the two
runs. -/
theorem claim6_notfound_uniform (db : Db) (p : PartialEmailPassword)
    (q : PartialUsernamePassword) :
    (∀ e, (p.authenticate db).1 = .error e →
      (∃ m, e = .NotFound m) ∧ ApiErrorType.fromAuthError e = .UserNotFound)
    ∧ (∀ e, (q.authenticate db).1 = .error e →
      (∃ m, e = .NotFound m) ∧ ApiErrorType.fromAuthError e = .UserNotFound) := by
  constructor
  · intro e he
    unfold PartialEmailPassword.authenticate EmailPassword.get_by_email at he
    rcases hf : db.email_password_credentials.find? (fun r => citextEq r.email p.email) with
      _ | r
    · rw [hf] at he
      simp only [Except.error.injEq] at he
      subst he
      exact ⟨⟨dieselNotFoundMsg, rfl⟩, rfl⟩
    · rw [hf] at he
      simp only at he
      split at he
      · exact absurd he (by simp)
      · simp only [Except.error.injEq] at he
        subst he
        exact ⟨⟨_, rfl⟩, rfl⟩
  · intro e he
    unfold PartialUsernamePassword.authenticate UsernamePassword.get_by_username at he
    rcases hf : db.username_password_credentials.find? (fun r => r.username == q.username) with
      _ | r
    · rw [hf] at he
      simp only [Except.error.injEq] at he
      subst he
      exact ⟨⟨dieselNotFoundMsg, rfl⟩, rfl⟩
    · rw [hf] at he
      simp only at he
      split at he
      · exact absurd he (by simp)
      · simp only [Except.error.injEq] at he
        subst he
        exact ⟨⟨_, rfl⟩, rfl⟩

/-- Claim C6 amended theorem, instantiated on the empty database. -/
theorem claim6_notfound_uniform_witness :
    (∃ m, (AuthError.NotFound dieselNotFoundMsg) = .NotFound m)
    ∧ ApiErrorType.fromAuthError (.NotFound dieselNotFoundMsg) = .UserNotFound :=
  (claim6_notfound_uniform emptyDb { email := "a@b.com", password := "pw" }
    { username := "alice", password := "pw" }).1 (.NotFound dieselNotFoundMsg) rfl

/-- Claim C8 counterexample: a successful email/password (and
username/password) authentication returns the matched row without writing
anything: the database is unchanged, and the stored `last_authentication`
stays at its old value 0. -/
theorem claim8_counterexample :
    PartialEmailPassword.authenticate { email := "a@b.com", password := "pw" } c8Db
      = (.ok c6Row, c8Db)
    ∧ c6Row.last_authentication = 0
    ∧ PartialUsernamePassword.authenticate
        { username := "alice", password := "pw2" } c8Db = (.ok c8UsernameRow, c8Db)
    ∧ c8UsernameRow.last_authentication = 0 :=
  ⟨rfl, rfl, rfl, rfl⟩

/-- Claim C8 (amended): only the GitHub OAuth variant updates
`last_authentication` on successful authentication (the returned row carries
the current time and is written back); the email/password and
username/password variants return the matched row and leave the database
untouched. -/
theorem claim8_last_authentication (db : Db) :
    (∀ (p : PartialGithubOauth) (now : Timestamp) (c : GithubOauth) (db' : Db),
      p.authenticate db now = (.ok c, db') →
        c.last_authentication = now ∧ c ∈ db'.github_oauth_credentials)
    ∧ (∀ p : PartialEmailPassword, (p.authenticate db).2 = db)
    ∧ (∀ q : PartialUsernamePassword, (q.authenticate db).2 = db) := by
  refine ⟨?_, ?_, ?_⟩
  · intro p now c db' h
    unfold PartialGithubOauth.authenticate at h
    rcases hg : GithubOauth.get_by_provider_id db p.provider_id with e | r
    · rw [hg] at h; exact absurd h (by simp)
    · rw [hg] at h
      obtain ⟨hr, hd⟩ := GithubOauth.get_by_provider_id_ok db p.provider_id r hg
      simp only [hd, Bool.false_eq_true, if_false, Prod.mk.injEq, Except.ok.injEq] at h
      obtain ⟨rfl, rfl⟩ := h
      refine ⟨rfl, ?_⟩
      exact List.mem_map.mpr ⟨r, hr, by simp⟩
  · intro p
    unfold PartialEmailPassword.authenticate
    rcases hf : EmailPassword.get_by_email db p.email with e | r
    · rfl
    · simp only
      split <;> rfl
  · intro q
    unfold PartialUsernamePassword.authenticate
    rcases hf : UsernamePassword.get_by_username db q.username with e | r
    · rfl
    · simp only
      split <;> rfl

/-- Claim C8 amended theorem, instantiated: GitHub authentication at time 7
stamps the returned row with 7 and stores it. -/
theorem claim8_last_authentication_witness :
    ({ c8GithubRow with last_authentication := 7 } : GithubOauth).last_authentication = 7
    ∧ ({ c8GithubRow with last_authentication := 7 } : GithubOauth)
        ∈ ((PartialGithubOauth.authenticate
          { provider_id := 42, username := "alice" } c8GithubDb 7).2).github_oauth_credentials :=
  (claim8_last_authentication c8GithubDb).1
    { provider_id := 42, username := "alice" } 7
    { c8GithubRow with last_authentication := 7 }
    (PartialGithubOauth.authenticate
      { provider_id := 42, username := "alice" } c8GithubDb 7).2 rfl

/-- Claim C9 counterexample: `AllowAuthenticated` does not always succeed — a
malformed session identity, or an identity that resolves to no User row,
makes it return the `UserNotFound` error. -/
theorem claim9_counterexample :
    AllowAuthenticated.new emptyDb (some "not-a-uuid") = .error .UserNotFound
    ∧ AllowAuthenticated.new emptyDb (some "5") = .error .UserNotFound :=
  ⟨rfl, rfl⟩

/-- Claim C9 (amended): the `Allowed` guard succeeds with `None` when no
identity is presented and with `Some(user)` when the identity parses and
resolves; but when an identity is present and is malformed, or resolves to
no User row, it fails with `UserNotFound`. -/
theorem claim9_allow_authenticated (db : Db) (identity : Option String) :
    (identity = none → AllowAuthenticated.new db identity = .ok none)
    ∧ (∀ s, identity = some s → uuidParse s = none →
        AllowAuthenticated.new db identity = .error .UserNotFound)
    ∧ (∀ s target, identity = some s → uuidParse s = some target →
        (∀ user, User.get_by_uid db target = .ok user →
          AllowAuthenticated.new db identity = .ok (some user))
        ∧ (∀ e, User.get_by_uid db target = .error e →
          AllowAuthenticated.new db identity = .error (ApiErrorType.fromAuthError e))) := by
  refine ⟨?_, ?_, ?_⟩
  · rintro rfl; rfl
  · rintro s rfl hs
    simp [AllowAuthenticated.new, hs]
  · rintro s target rfl hs
    constructor
    · intro user hu
      simp [AllowAuthenticated.new, hs, hu]
    · intro e he
      simp [AllowAuthenticated.new, hs, he]

/-- Claim C9 amended theorem, instantiated: no identity yields `Ok(None)`. -/
theorem claim9_allow_authenticated_witness :
    AllowAuthenticated.new emptyDb none = .ok none :=
  (claim9_allow_authenticated emptyDb none).1 rfl

/-- Claim C5: `User::new` is one transaction that inserts a User row with the
freshly generated uid and then runs the credential association with that uid;
if the association fails the whole transaction rolls back — the database is
returned unchanged, so no User row with the new uid remains — and the
association's error is returned; if it succeeds, the user is returned together
with the association's post-state. -/
theorem claim5_user_new_rollback {α : Type} (db : Db) (fresh : Uuid)
    (associate : Db → Uuid → (Except AuthError α) × Db)
    (hfresh : ∀ u ∈ db.users, u.uid ≠ fresh) :
    (∀ e, (associate { db with users := db.users ++ [{ uid := fresh }] } fresh).1 = .error e →
      User.new db fresh associate = (.error e, db)
      ∧ ∀ u ∈ (User.new db fresh associate).2.users, u.uid ≠ fresh)
    ∧ (∀ r db2,
        associate { db with users := db.users ++ [{ uid := fresh }] } fresh = (.ok r, db2) →
        User.new db fresh associate = (.ok { uid := fresh }, db2)) := by
  have hany : db.users.any (fun u => u.uid == fresh) = false := by
    rw [List.any_eq_false]
    intro u hu
    simpa using hfresh u hu
  constructor
  · intro e he
    rcases ha : associate { db with users := db.users ++ [{ uid := fresh }] } fresh with ⟨res, db2⟩
    rw [ha] at he
    rcases res with e' | r
    · have hee : e' = e := by simpa using he
      subst hee
      unfold User.new
      rw [hany]
      simp only [Bool.false_eq_true, if_false, ha]
      exact ⟨trivial, fun u hu => hfresh u hu⟩
    · exact absurd he (by simp)
  · intro r db2 ha
    unfold User.new
    rw [hany]
    simp only [Bool.false_eq_true, if_false, ha]

/-- Claim C5 theorem, instantiated: registering user 2 with an email that is
already taken fails with `Exists` and leaves no trace of user 2. -/
theorem claim5_user_new_rollback_witness :
    User.new c6Db 2 (fun d u =>
        PartialEmailPassword.associate { email := "a@b.com", password := "x" } d u 11 5)
      = (.error (.Exists uniqueViolationMsg), c6Db)
    ∧ ∀ u ∈ (User.new c6Db 2 (fun d u =>
        PartialEmailPassword.associate { email := "a@b.com", password := "x" } d u 11 5)).2.users,
        u.uid ≠ 2 :=
  (claim5_user_new_rollback c6Db 2
    (fun d u => PartialEmailPassword.associate { email := "a@b.com", password := "x" } d u 11 5)
    (by decide)).1 (.Exists uniqueViolationMsg) rfl

/-- A list is pointwise related to its image under a function. -/
theorem forall2_map_self {α : Type} (f : α → α) (P : α → α → Prop)
    (l : List α) (h : ∀ a ∈ l, P a (f a)) : List.Forall₂ P l (l.map f) := by
  induction l with
  | nil => exact .nil
  | cons x xs ih => exact .cons (h x (by simp)) (ih (fun a ha => h a (by simp [ha])))

/-- Appending one fresh element keeps a list duplicate-free. -/
theorem nodup_append_singleton {α : Type} (l : List α) (x : α)
    (hx : ∀ a ∈ l, a ≠ x) (hl : l.Nodup) : (l ++ [x]).Nodup := by
  rw [List.nodup_append]
  exact ⟨hl, List.nodup_singleton x, fun a ha hb => hx a ha (by simpa using hb)⟩

/-- Mapping a uid-preserving function over lookup rows leaves the uid
projection unchanged. -/
theorem map_uid_eq (f : CredentialLookup → CredentialLookup)
    (hf : ∀ l, (f l).uid = l.uid) (l : List CredentialLookup) :
    (l.map f).map (fun x => x.uid) = l.map (fun x => x.uid) := by
  rw [List.map_map]
  exact List.map_congr_left (fun a _ => hf a)

/-- Inversion of a successful `CredentialLookup::get_by_uid`. -/
theorem CredentialLookup.get_by_uid_ok (db : Db) (u : Uuid) (lk : CredentialLookup)
    (h : CredentialLookup.get_by_uid db u = .ok lk) :
    lk ∈ db.credentials ∧ lk.uid = u := by
  unfold CredentialLookup.get_by_uid at h
  rcases hf : db.credentials.find? (fun l => l.uid == u) with _ | x <;> rw [hf] at h
  · exact absurd h (by simp)
  · have hx : x = lk := by simpa using h
    subst hx
    exact ⟨List.mem_of_find?_eq_some hf, by simpa using List.find?_some hf⟩

/-- Inversion of a successful `EmailPassword::delete`: the owner's lookup row
was found with multiple credentials, the credential row was removed from its
table, and exactly the `email_password` slots equal to the deleted cid were
nulled; everything else is unchanged. -/
theorem delete_email_ok_inv (self : EmailPassword) (db db' : Db)
    (h : self.delete db = (.ok (), db')) :
    ∃ lk, db.credentials.find? (fun l => l.uid == self.uid) = some lk
      ∧ lk.has_multiple_credentials = true
      ∧ db'.users = db.users
      ∧ db'.credentials = db.credentials.map (fun l =>
          if l.email_password == some self.cid then { l with email_password := none } else l)
      ∧ db'.email_password_credentials =
          db.email_password_credentials.filter (fun r => r.cid != self.cid)
      ∧ db'.github_oauth_credentials = db.github_oauth_credentials
      ∧ db'.username_password_credentials = db.username_password_credentials := by
  unfold EmailPassword.delete CredentialLookup.get_by_uid at h
  rcases hf : db.credentials.find? (fun l => l.uid == self.uid) with _ | lk <;> rw [hf] at h
  · exact absurd h (by simp)
  · refine ⟨lk, hf, ?_⟩
    by_cases hm : lk.has_multiple_credentials <;> simp only [hm] at h
    · simp only [Bool.not_true, Bool.false_eq_true, if_false, Prod.mk.injEq, true_and] at h
      subst h
      exact ⟨hm, rfl, rfl, rfl, rfl, rfl⟩
    · exact absurd h (by simp)

/-- `EmailPassword::delete` preserves database well-formedness. -/
theorem wf_delete_email (self : EmailPassword) (db db' : Db)
    (hwf : WellFormed db) (h : self.delete db = (.ok (), db')) : WellFormed db' := by
  obtain ⟨lk, hf, hm, hus, hcr, hep, hgo, hup⟩ := delete_email_ok_inv self db db' h
  obtain ⟨h1, h2, h3, h4, h5⟩ := hwf
  refine ⟨?_, ?_, ?_, ?_, ?_⟩
  · rw [hcr]
    rw [map_uid_eq _ (fun l => by
      by_cases hb : l.email_password == some self.cid <;> simp [hb])]
    exact h1
  · rw [hep]
    exact List.Nodup.sublist ((List.filter_sublist _).map _) h2
  · rw [hgo]; exact h3
  · rw [hup]; exact h4
  · intro l' hl'
    rw [hcr] at hl'
    rcases List.mem_map.mp hl' with ⟨l, hl, rfl⟩
    obtain ⟨he, hg, hu⟩ := h5 l hl
    by_cases hb : (l.email_password == some self.cid) = true
    · rw [if_pos hb]
      refine ⟨?_, ?_, ?_⟩
      · intro c hc; simp at hc
      · intro c hc
        obtain ⟨r, hr, hrc, hru⟩ := hg c hc
        exact ⟨r, by rw [hgo]; exact hr, hrc, hru⟩
      · intro c hc
        obtain ⟨r, hr, hrc, hru⟩ := hu c hc
        exact ⟨r, by rw [hup]; exact hr, hrc, hru⟩
    · rw [if_neg hb]
      refine ⟨?_, ?_, ?_⟩
      · intro c hc
        obtain ⟨r, hr, hrc, hru⟩ := he c hc
        refine ⟨r, ?_, hrc, hru⟩
        rw [hep]
        refine List.mem_filter.mpr ⟨hr, ?_⟩
        have hcc : c ≠ self.cid := by
          intro hcc
          apply hb
          rw [Option.mem_def] at hc
          rw [hc, hcc]
          simp
        simp [hrc, hcc]
      · intro c hc
        obtain ⟨r, hr, hrc, hru⟩ := hg c hc
        exact ⟨r, by rw [hgo]; exact hr, hrc, hru⟩
      · intro c hc
        obtain ⟨r, hr, hrc, hru⟩ := hu c hc
        exact ⟨r, by rw [hup]; exact hr, hrc, hru⟩

/-- Inversion of a successful `UsernamePassword::delete`. -/
theorem delete_username_ok_inv (self : UsernamePassword) (db db' : Db)
    (h : self.delete db = (.ok (), db')) :
    ∃ lk, db.credentials.find? (fun l => l.uid == self.uid) = some lk
      ∧ lk.has_multiple_credentials = true
      ∧ db'.users = db.users
      ∧ db'.credentials = db.credentials.map (fun l =>
          if l.username_password == some self.cid then { l with username_password := none } else l)
      ∧ db'.username_password_credentials =
          db.username_password_credentials.filter (fun r => r.cid != self.cid)
      ∧ db'.github_oauth_credentials = db.github_oauth_credentials
      ∧ db'.email_password_credentials = db.email_password_credentials := by
  unfold UsernamePassword.delete CredentialLookup.get_by_uid at h
  rcases hf : db.credentials.find? (fun l => l.uid == self.uid) with _ | lk <;> rw [hf] at h
  · exact absurd h (by simp)
  · refine ⟨lk, hf, ?_⟩
    by_cases hm : lk.has_multiple_credentials <;> simp only [hm] at h
    · simp only [Bool.not_true, Bool.false_eq_true, if_false, Prod.mk.injEq, true_and] at h
      subst h
      exact ⟨hm, rfl, rfl, rfl, rfl, rfl⟩
    · exact absurd h (by simp)

/-- `UsernamePassword::delete` preserves database well-formedness. -/
theorem wf_delete_username (self : UsernamePassword) (db db' : Db)
    (hwf : WellFormed db) (h : self.delete db = (.ok (), db')) : WellFormed db' := by
  obtain ⟨lk, hf, hm, hus, hcr, hupf, hgo, hep⟩ := delete_username_ok_inv self db db' h
  obtain ⟨h1, h2, h3, h4, h5⟩ := hwf
  refine ⟨?_, ?_, ?_, ?_, ?_⟩
  · rw [hcr]
    rw [map_uid_eq _ (fun l => by
      by_cases hb : l.username_password == some self.cid <;> simp [hb])]
    exact h1
  · rw [hep]; exact h2
  · rw [hgo]; exact h3
  · rw [hupf]
    exact List.Nodup.sublist ((List.filter_sublist _).map _) h4
  · intro l' hl'
    rw [hcr] at hl'
    rcases List.mem_map.mp hl' with ⟨l, hl, rfl⟩
    obtain ⟨he, hg, hu⟩ := h5 l hl
    by_cases hb : (l.username_password == some self.cid) = true
    · rw [if_pos hb]
      refine ⟨?_, ?_, ?_⟩
      · intro c hc
        obtain ⟨r, hr, hrc, hru⟩ := he c hc
        exact ⟨r, by rw [hep]; exact hr, hrc, hru⟩
      · intro c hc
        obtain ⟨r, hr, hrc, hru⟩ := hg c hc
        exact ⟨r, by rw [hgo]; exact hr, hrc, hru⟩
      · intro c hc; simp at hc
    · rw [if_neg hb]
      refine ⟨?_, ?_, ?_⟩
      · intro c hc
        obtain ⟨r, hr, hrc, hru⟩ := he c hc
        exact ⟨r, by rw [hep]; exact hr, hrc, hru⟩
      · intro c hc
        obtain ⟨r, hr, hrc, hru⟩ := hg c hc
        exact ⟨r, by rw [hgo]; exact hr, hrc, hru⟩
      · intro c hc
        obtain ⟨r, hr, hrc, hru⟩ := hu c hc
        refine ⟨r, ?_, hrc, hru⟩
        rw [hupf]
        refine List.mem_filter.mpr ⟨hr, ?_⟩
        have hcc : c ≠ self.cid := by
          intro hcc
          apply hb
          rw [Option.mem_def] at hc
          rw [hc, hcc]
          simp
        simp [hrc, hcc]

/-- Inversion of a successful `GithubOauth::delete`. -/
theorem delete_github_ok_inv (self : GithubOauth) (db db' : Db)
    (h : self.delete db = (.ok (), db')) :
    ∃ lk, db.credentials.find? (fun l => l.uid == self.uid) = some lk
      ∧ lk.has_multiple_credentials = true
      ∧ db'.users = db.users
      ∧ db'.credentials = db.credentials.map (fun l =>
          if l.github_oauth == some self.cid then { l with github_oauth := none } else l)
      ∧ db'.github_oauth_credentials =
          db.github_oauth_credentials.filter (fun r => r.cid != self.cid)
      ∧ db'.email_password_credentials = db.email_password_credentials
      ∧ db'.username_password_credentials = db.username_password_credentials := by
  unfold GithubOauth.delete CredentialLookup.get_by_uid at h
  rcases hf : db.credentials.find? (fun l => l.uid == self.uid) with _ | lk <;> rw [hf] at h
  · exact absurd h (by simp)
  · refine ⟨lk, hf, ?_⟩
    by_cases hm : lk.has_multiple_credentials <;> simp only [hm] at h
    · simp only [Bool.not_true, Bool.false_eq_true, if_false, Prod.mk.injEq, true_and] at h
      subst h
      exact ⟨hm, rfl, rfl, rfl, rfl, rfl⟩
    · exact absurd h (by simp)

/-- `GithubOauth::delete` preserves database well-formedness. -/
theorem wf_delete_github (self : GithubOauth) (db db' : Db)
    (hwf : WellFormed db) (h : self.delete db = (.ok (), db')) : WellFormed db' := by
  obtain ⟨lk, hf, hm, hus, hcr, hgof, hep, hup⟩ := delete_github_ok_inv self db db' h
  obtain ⟨h1, h2, h3, h4, h5⟩ := hwf
  refine ⟨?_, ?_, ?_, ?_, ?_⟩
  · rw [hcr]
    rw [map_uid_eq _ (fun l => by
      by_cases hb : l.github_oauth == some self.cid <;> simp [hb])]
    exact h1
  · rw [hep]; exact h2
  · rw [hgof]
    exact List.Nodup.sublist ((List.filter_sublist _).map _) h3
  · rw [hup]; exact h4
  · intro l' hl'
    rw [hcr] at hl'
    rcases List.mem_map.mp hl' with ⟨l, hl, rfl⟩
    obtain ⟨he, hg, hu⟩ := h5 l hl
    by_cases hb : (l.github_oauth == some self.cid) = true
    · rw [if_pos hb]
      refine ⟨?_, ?_, ?_⟩
      · intro c hc
        obtain ⟨r, hr, hrc, hru⟩ := he c hc
        exact ⟨r, by rw [hep]; exact hr, hrc, hru⟩
      · intro c hc; simp at hc
      · intro c hc
        obtain ⟨r, hr, hrc, hru⟩ := hu c hc
        exact ⟨r, by rw [hup]; exact hr, hrc, hru⟩
    · rw [if_neg hb]
      refine ⟨?_, ?_, ?_⟩
      · intro c hc
        obtain ⟨r, hr, hrc, hru⟩ := he c hc
        exact ⟨r, by rw [hep]; exact hr, hrc, hru⟩
      · intro c hc
        obtain ⟨r, hr, hrc, hru⟩ := hg c hc
        refine ⟨r, ?_, hrc, hru⟩
        rw [hgof]
        refine List.mem_filter.mpr ⟨hr, ?_⟩
        have hcc : c ≠ self.cid := by
          intro hcc
          apply hb
          rw [Option.mem_def] at hc
          rw [hc, hcc]
          simp
        simp [hrc, hcc]
      · intro c hc
        obtain ⟨r, hr, hrc, hru⟩ := hu c hc
        exact ⟨r, by rw [hup]; exact hr, hrc, hru⟩

/-- Inversion of a successful `PartialEmailPassword::associate`: the insert
passed the unique constraints, the new row was appended, and the lookup row
was upserted (slot update when the owner already had a row, fresh row with
only the email slot set otherwise). -/
theorem assoc_email_ok_inv (p : PartialEmailPassword) (db : Db)
    (owner_uid fresh_cid : Uuid) (now : Timestamp) (r : EmailPassword) (db' : Db)
    (h : p.associate db owner_uid fresh_cid now = (.ok r, db')) :
    r = { cid := fresh_cid, uid := owner_uid, email := p.email,
          password := argon2_hash p.password, verified := false, disabled := false,
          last_update := now, last_authentication := now, created := now }
    ∧ db.email_password_credentials.any
        (fun x => x.cid == fresh_cid || citextEq x.email p.email) = false
    ∧ db'.users = db.users
    ∧ db'.email_password_credentials = db.email_password_credentials ++ [r]
    ∧ db'.github_oauth_credentials = db.github_oauth_credentials
    ∧ db'.username_password_credentials = db.username_password_credentials
    ∧ ((db.credentials.any (fun l => l.uid == owner_uid) = true
        ∧ db'.credentials = db.credentials.map (fun l =>
            if l.uid == owner_uid then { l with email_password := some fresh_cid } else l))
      ∨ (db.credentials.any (fun l => l.uid == owner_uid) = false
        ∧ db'.credentials = db.credentials ++
            [{ uid := owner_uid, email_password := some fresh_cid,
               github_oauth := none, username_password := none }])) := by
  rcases hany : db.email_password_credentials.any
      (fun x => x.cid == fresh_cid || citextEq x.email p.email) with _ | _
  · rcases huid : db.credentials.any (fun l => l.uid == owner_uid) with _ | _
    · simp only [PartialEmailPassword.associate, hany, huid, Bool.false_eq_true, if_false,
        Prod.mk.injEq, Except.ok.injEq] at h
      obtain ⟨hre, hdb⟩ := h
      subst hdb
      exact ⟨hre.symm, rfl, rfl, by rw [hre], rfl, rfl, .inr ⟨rfl, by rw [hre]⟩⟩
    · simp only [PartialEmailPassword.associate, hany, huid, Bool.false_eq_true, if_false,
        if_true, Prod.mk.injEq, Except.ok.injEq] at h
      obtain ⟨hre, hdb⟩ := h
      subst hdb
      exact ⟨hre.symm, rfl, rfl, by rw [hre], rfl, rfl, .inl ⟨rfl, by rw [hre]⟩⟩
  · simp only [PartialEmailPassword.associate, hany, if_true] at h
    exact absurd h (by simp)

/-- `PartialEmailPassword::associate` preserves database well-formedness. -/
theorem wf_assoc_email (p : PartialEmailPassword) (db : Db) (owner_uid fresh_cid : Uuid)
    (now : Timestamp) (r : EmailPassword) (db' : Db)
    (hwf : WellFormed db) (h : p.associate db owner_uid fresh_cid now = (.ok r, db')) :
    WellFormed db' := by
  obtain ⟨hr, hany, hus, hep, hgo, hup, hcred⟩ :=
    assoc_email_ok_inv p db owner_uid fresh_cid now r db' h
  have hrcid : r.cid = fresh_cid := by rw [hr]
  have hruid : r.uid = owner_uid := by rw [hr]
  obtain ⟨h1, h2, h3, h4, h5⟩ := hwf
  have hfreshcid : ∀ x ∈ db.email_password_credentials, x.cid ≠ fresh_cid := by
    rw [List.any_eq_false] at hany
    intro x hx
    have hx2 := hany x hx
    simp at hx2
    exact hx2.1
  refine ⟨?_, ?_, ?_, ?_, ?_⟩
  · rcases hcred with ⟨hu, hc⟩ | ⟨hu, hc⟩
    · rw [hc, map_uid_eq _ (fun l => by by_cases hb : l.uid == owner_uid <;> simp [hb])]
      exact h1
    · rw [hc, List.map_append]
      refine nodup_append_singleton _ _ ?_ h1
      intro a ha
      rcases List.mem_map.mp ha with ⟨l, hl, rfl⟩
      rw [List.any_eq_false] at hu
      have := hu l hl
      simpa using this
  · rw [hep, List.map_append]
    refine nodup_append_singleton _ _ ?_ h2
    intro a ha
    rcases List.mem_map.mp ha with ⟨x, hx, rfl⟩
    show x.cid ≠ r.cid
    rw [hrcid]
    exact hfreshcid x hx
  · rw [hgo]; exact h3
  · rw [hup]; exact h4
  · intro l' hl'
    rcases hcred with ⟨hu, hc⟩ | ⟨hu, hc⟩
    · rw [hc] at hl'
      rcases List.mem_map.mp hl' with ⟨l, hl, rfl⟩
      obtain ⟨he, hg, husl⟩ := h5 l hl
      by_cases hb : (l.uid == owner_uid) = true
      · rw [if_pos hb]
        refine ⟨?_, ?_, ?_⟩
        · intro c hc2
          rw [Option.mem_def] at hc2
          have hcc : fresh_cid = c := by simpa using hc2
          subst hcc
          have hlu : l.uid = owner_uid := by simpa using hb
          refine ⟨r, ?_, ?_, ?_⟩
          · rw [hep]; exact List.mem_append_right _ (List.mem_singleton_self _)
          · rw [hrcid]
          · rw [hruid]; exact hlu.symm
        · intro c hc2
          obtain ⟨rr, hrr, hrc, hru⟩ := hg c hc2
          exact ⟨rr, by rw [hgo]; exact hrr, hrc, hru⟩
        · intro c hc2
          obtain ⟨rr, hrr, hrc, hru⟩ := husl c hc2
          exact ⟨rr, by rw [hup]; exact hrr, hrc, hru⟩
      · rw [if_neg hb]
        refine ⟨?_, ?_, ?_⟩
        · intro c hc2
          obtain ⟨rr, hrr, hrc, hru⟩ := he c hc2
          exact ⟨rr, by rw [hep]; exact List.mem_append_left _ hrr, hrc, hru⟩
        · intro c hc2
          obtain ⟨rr, hrr, hrc, hru⟩ := hg c hc2
          exact ⟨rr, by rw [hgo]; exact hrr, hrc, hru⟩
        · intro c hc2
          obtain ⟨rr, hrr, hrc, hru⟩ := husl c hc2
          exact ⟨rr, by rw [hup]; exact hrr, hrc, hru⟩
    · rw [hc] at hl'
      rcases List.mem_append.mp hl' with hl | hl
      · obtain ⟨he, hg, husl⟩ := h5 l' hl
        refine ⟨?_, ?_, ?_⟩
        · intro c hc2
          obtain ⟨rr, hrr, hrc, hru⟩ := he c hc2
          exact ⟨rr, by rw [hep]; exact List.mem_append_left _ hrr, hrc, hru⟩
        · intro c hc2
          obtain ⟨rr, hrr, hrc, hru⟩ := hg c hc2
          exact ⟨rr, by rw [hgo]; exact hrr, hrc, hru⟩
        · intro c hc2
          obtain ⟨rr, hrr, hrc, hru⟩ := husl c hc2
          exact ⟨rr, by rw [hup]; exact hrr, hrc, hru⟩
      · have hl2 : l' = { uid := owner_uid, email_password := some fresh_cid, github_oauth := none, username_password := none } := by simpa using hl
        subst hl2
        refine ⟨?_, ?_, ?_⟩
        · intro c hc2
          have hcc : fresh_cid = c := by simpa using hc2
          subst hcc
          refine ⟨r, ?_, ?_, ?_⟩
          · rw [hep]; exact List.mem_append_right _ (List.mem_singleton_self _)
          · rw [hrcid]
          · rw [hruid]
        · intro c hc2; simp at hc2
        · intro c hc2; simp at hc2

/-- Inversion of a successful `PartialGithubOauth::associate`. -/
theorem assoc_github_ok_inv (p : PartialGithubOauth) (db : Db)
    (owner_uid fresh_cid : Uuid) (now : Timestamp) (r : GithubOauth) (db' : Db)
    (h : p.associate db owner_uid fresh_cid now = (.ok r, db')) :
    r = { cid := fresh_cid, uid := owner_uid, provider_id := p.provider_id,
          username := p.username, last_authentication := now, last_update := now,
          created := now, disabled := false }
    ∧ db.github_oauth_credentials.any
        (fun x => x.cid == fresh_cid || x.provider_id == p.provider_id) = false
    ∧ db'.users = db.users
    ∧ db'.github_oauth_credentials = db.github_oauth_credentials ++ [r]
    ∧ db'.email_password_credentials = db.email_password_credentials
    ∧ db'.username_password_credentials = db.username_password_credentials
    ∧ ((db.credentials.any (fun l => l.uid == owner_uid) = true
        ∧ db'.credentials = db.credentials.map (fun l =>
            if l.uid == owner_uid then { l with github_oauth := some fresh_cid } else l))
      ∨ (db.credentials.any (fun l => l.uid == owner_uid) = false
        ∧ db'.credentials = db.credentials ++
            [{ uid := owner_uid, email_password := none,
               github_oauth := some fresh_cid, username_password := none }])) := by
  rcases hany : db.github_oauth_credentials.any
      (fun x => x.cid == fresh_cid || x.provider_id == p.provider_id) with _ | _
  · rcases huid : db.credentials.any (fun l => l.uid == owner_uid) with _ | _
    · simp only [PartialGithubOauth.associate, hany, huid, Bool.false_eq_true, if_false,
        Prod.mk.injEq, Except.ok.injEq] at h
      obtain ⟨hre, hdb⟩ := h
      subst hdb
      exact ⟨hre.symm, rfl, rfl, by rw [hre], rfl, rfl, .inr ⟨rfl, by rw [hre]⟩⟩
    · simp only [PartialGithubOauth.associate, hany, huid, Bool.false_eq_true, if_false,
        if_true, Prod.mk.injEq, Except.ok.injEq] at h
      obtain ⟨hre, hdb⟩ := h
      subst hdb
      exact ⟨hre.symm, rfl, rfl, by rw [hre], rfl, rfl, .inl ⟨rfl, by rw [hre]⟩⟩
  · simp only [PartialGithubOauth.associate, hany, if_true] at h
    exact absurd h (by simp)

/-- `PartialGithubOauth::associate` preserves database well-formedness. -/
theorem wf_assoc_github (p : PartialGithubOauth) (db : Db) (owner_uid fresh_cid : Uuid)
    (now : Timestamp) (r : GithubOauth) (db' : Db)
    (hwf : WellFormed db) (h : p.associate db owner_uid fresh_cid now = (.ok r, db')) :
    WellFormed db' := by
  obtain ⟨hr, hany, hus, hgof, hep, hup, hcred⟩ :=
    assoc_github_ok_inv p db owner_uid fresh_cid now r db' h
  have hrcid : r.cid = fresh_cid := by rw [hr]
  have hruid : r.uid = owner_uid := by rw [hr]
  obtain ⟨h1, h2, h3, h4, h5⟩ := hwf
  have hfreshcid : ∀ x ∈ db.github_oauth_credentials, x.cid ≠ fresh_cid := by
    rw [List.any_eq_false] at hany
    intro x hx
    have hx2 := hany x hx
    simp at hx2
    exact hx2.1
  refine ⟨?_, ?_, ?_, ?_, ?_⟩
  · rcases hcred with ⟨hu, hc⟩ | ⟨hu, hc⟩
    · rw [hc, map_uid_eq _ (fun l => by by_cases hb : l.uid == owner_uid <;> simp [hb])]
      exact h1
    · rw [hc, List.map_append]
      refine nodup_append_singleton _ _ ?_ h1
      intro a ha
      rcases List.mem_map.mp ha with ⟨l, hl, rfl⟩
      rw [List.any_eq_false] at hu
      have := hu l hl
      simpa using this
  · rw [hep]; exact h2
  · rw [hgof, List.map_append]
    refine nodup_append_singleton _ _ ?_ h3
    intro a ha
    rcases List.mem_map.mp ha with ⟨x, hx, rfl⟩
    show x.cid ≠ r.cid
    rw [hrcid]
    exact hfreshcid x hx
  · rw [hup]; exact h4
  · intro l' hl'
    rcases hcred with ⟨hu, hc⟩ | ⟨hu, hc⟩
    · rw [hc] at hl'
      rcases List.mem_map.mp hl' with ⟨l, hl, rfl⟩
      obtain ⟨he, hg, husl⟩ := h5 l hl
      by_cases hb : (l.uid == owner_uid) = true
      · rw [if_pos hb]
        refine ⟨?_, ?_, ?_⟩
        · intro c hc2
          obtain ⟨rr, hrr, hrc, hru⟩ := he c hc2
          exact ⟨rr, by rw [hep]; exact hrr, hrc, hru⟩
        · intro c hc2
          rw [Option.mem_def] at hc2
          have hcc : fresh_cid = c := by simpa using hc2
          subst hcc
          have hlu : l.uid = owner_uid := by simpa using hb
          refine ⟨r, ?_, ?_, ?_⟩
          · rw [hgof]; exact List.mem_append_right _ (List.mem_singleton_self _)
          · rw [hrcid]
          · rw [hruid]; exact hlu.symm
        · intro c hc2
          obtain ⟨rr, hrr, hrc, hru⟩ := husl c hc2
          exact ⟨rr, by rw [hup]; exact hrr, hrc, hru⟩
      · rw [if_neg hb]
        refine ⟨?_, ?_, ?_⟩
        · intro c hc2
          obtain ⟨rr, hrr, hrc, hru⟩ := he c hc2
          exact ⟨rr, by rw [hep]; exact hrr, hrc, hru⟩
        · intro c hc2
          obtain ⟨rr, hrr, hrc, hru⟩ := hg c hc2
          exact ⟨rr, by rw [hgof]; exact List.mem_append_left _ hrr, hrc, hru⟩
        · intro c hc2
          obtain ⟨rr, hrr, hrc, hru⟩ := husl c hc2
          exact ⟨rr, by rw [hup]; exact hrr, hrc, hru⟩
    · rw [hc] at hl'
      rcases List.mem_append.mp hl' with hl | hl
      · obtain ⟨he, hg, husl⟩ := h5 l' hl
        refine ⟨?_, ?_, ?_⟩
        · intro c hc2
          obtain ⟨rr, hrr, hrc, hru⟩ := he c hc2
          exact ⟨rr, by rw [hep]; exact hrr, hrc, hru⟩
        · intro c hc2
          obtain ⟨rr, hrr, hrc, hru⟩ := hg c hc2
          exact ⟨rr, by rw [hgof]; exact List.mem_append_left _ hrr, hrc, hru⟩
        · intro c hc2
          obtain ⟨rr, hrr, hrc, hru⟩ := husl c hc2
          exact ⟨rr, by rw [hup]; exact hrr, hrc, hru⟩
      · have hl2 : l' = { uid := owner_uid, email_password := none, github_oauth := some fresh_cid, username_password := none } := by simpa using hl
        subst hl2
        refine ⟨?_, ?_, ?_⟩
        · intro c hc2; simp at hc2
        · intro c hc2
          have hcc : fresh_cid = c := by simpa using hc2
          subst hcc
          refine ⟨r, ?_, ?_, ?_⟩
          · rw [hgof]; exact List.mem_append_right _ (List.mem_singleton_self _)
          · rw [hrcid]
          · rw [hruid]
        · intro c hc2; simp at hc2

/-- Inversion of a successful `PartialUsernamePassword::associate`. -/
theorem assoc_username_ok_inv (p : PartialUsernamePassword) (db : Db)
    (owner_uid fresh_cid : Uuid) (now : Timestamp) (r : UsernamePassword) (db' : Db)
    (h : p.associate db owner_uid fresh_cid now = (.ok r, db')) :
    r = { cid := fresh_cid, uid := owner_uid, username := p.username,
          password := argon2_hash p.password, verified := false, disabled := false,
          last_update := now, last_authentication := now, created := now }
    ∧ db.username_password_credentials.any
        (fun x => x.cid == fresh_cid || x.username == p.username) = false
    ∧ db'.users = db.users
    ∧ db'.username_password_credentials = db.username_password_credentials ++ [r]
    ∧ db'.email_password_credentials = db.email_password_credentials
    ∧ db'.github_oauth_credentials = db.github_oauth_credentials
    ∧ ((db.credentials.any (fun l => l.uid == owner_uid) = true
        ∧ db'.credentials = db.credentials.map (fun l =>
            if l.uid == owner_uid then { l with username_password := some fresh_cid } else l))
      ∨ (db.credentials.any (fun l => l.uid == owner_uid) = false
        ∧ db'.credentials = db.credentials ++
            [{ uid := owner_uid, email_password := none,
               github_oauth := none, username_password := some fresh_cid }])) := by
  rcases hany : db.username_password_credentials.any
      (fun x => x.cid == fresh_cid || x.username == p.username) with _ | _
  · rcases huid : db.credentials.any (fun l => l.uid == owner_uid) with _ | _
    · simp only [PartialUsernamePassword.associate, hany, huid, Bool.false_eq_true, if_false,
        Prod.mk.injEq, Except.ok.injEq] at h
      obtain ⟨hre, hdb⟩ := h
      subst hdb
      exact ⟨hre.symm, rfl, rfl, by rw [hre], rfl, rfl, .inr ⟨rfl, by rw [hre]⟩⟩
    · simp only [PartialUsernamePassword.associate, hany, huid, Bool.false_eq_true, if_false,
        if_true, Prod.mk.injEq, Except.ok.injEq] at h
      obtain ⟨hre, hdb⟩ := h
      subst hdb
      exact ⟨hre.symm, rfl, rfl, by rw [hre], rfl, rfl, .inl ⟨rfl, by rw [hre]⟩⟩
  · simp only [PartialUsernamePassword.associate, hany, if_true] at h
    exact absurd h (by simp)

/-- `PartialUsernamePassword::associate` preserves database well-formedness. -/
theorem wf_assoc_username (p : PartialUsernamePassword) (db : Db) (owner_uid fresh_cid : Uuid)
    (now : Timestamp) (r : UsernamePassword) (db' : Db)
    (hwf : WellFormed db) (h : p.associate db owner_uid fresh_cid now = (.ok r, db')) :
    WellFormed db' := by
  obtain ⟨hr, hany, hus, hupf, hep, hgo, hcred⟩ :=
    assoc_username_ok_inv p db owner_uid fresh_cid now r db' h
  have hrcid : r.cid = fresh_cid := by rw [hr]
  have hruid : r.uid = owner_uid := by rw [hr]
  obtain ⟨h1, h2, h3, h4, h5⟩ := hwf
  have hfreshcid : ∀ x ∈ db.username_password_credentials, x.cid ≠ fresh_cid := by
    rw [List.any_eq_false] at hany
    intro x hx
    have hx2 := hany x hx
    simp at hx2
    exact hx2.1
  refine ⟨?_, ?_, ?_, ?_, ?_⟩
  · rcases hcred with ⟨hu, hc⟩ | ⟨hu, hc⟩
    · rw [hc, map_uid_eq _ (fun l => by by_cases hb : l.uid == owner_uid <;> simp [hb])]
      exact h1
    · rw [hc, List.map_append]
      refine nodup_append_singleton _ _ ?_ h1
      intro a ha
      rcases List.mem_map.mp ha with ⟨l, hl, rfl⟩
      rw [List.any_eq_false] at hu
      have := hu l hl
      simpa using this
  · rw [hep]; exact h2
  · rw [hgo]; exact h3
  · rw [hupf, List.map_append]
    refine nodup_append_singleton _ _ ?_ h4
    intro a ha
    rcases List.mem_map.mp ha with ⟨x, hx, rfl⟩
    show x.cid ≠ r.cid
    rw [hrcid]
    exact hfreshcid x hx
  · intro l' hl'
    rcases hcred with ⟨hu, hc⟩ | ⟨hu, hc⟩
    · rw [hc] at hl'
      rcases List.mem_map.mp hl' with ⟨l, hl, rfl⟩
      obtain ⟨he, hg, husl⟩ := h5 l hl
      by_cases hb : (l.uid == owner_uid) = true
      · rw [if_pos hb]
        refine ⟨?_, ?_, ?_⟩
        · intro c hc2
          obtain ⟨rr, hrr, hrc, hru⟩ := he c hc2
          exact ⟨rr, by rw [hep]; exact hrr, hrc, hru⟩
        · intro c hc2
          obtain ⟨rr, hrr, hrc, hru⟩ := hg c hc2
          exact ⟨rr, by rw [hgo]; exact hrr, hrc, hru⟩
        · intro c hc2
          rw [Option.mem_def] at hc2
          have hcc : fresh_cid = c := by simpa using hc2
          subst hcc
          have hlu : l.uid = owner_uid := by simpa using hb
          refine ⟨r, ?_, ?_, ?_⟩
          · rw [hupf]; exact List.mem_append_right _ (List.mem_singleton_self _)
          · rw [hrcid]
          · rw [hruid]; exact hlu.symm
      · rw [if_neg hb]
        refine ⟨?_, ?_, ?_⟩
        · intro c hc2
          obtain ⟨rr, hrr, hrc, hru⟩ := he c hc2
          exact ⟨rr, by rw [hep]; exact hrr, hrc, hru⟩
        · intro c hc2
          obtain ⟨rr, hrr, hrc, hru⟩ := hg c hc2
          exact ⟨rr, by rw [hgo]; exact hrr, hrc, hru⟩
        · intro c hc2
          obtain ⟨rr, hrr, hrc, hru⟩ := husl c hc2
          exact ⟨rr, by rw [hupf]; exact List.mem_append_left _ hrr, hrc, hru⟩
    · rw [hc] at hl'
      rcases List.mem_append.mp hl' with hl | hl
      · obtain ⟨he, hg, husl⟩ := h5 l' hl
        refine ⟨?_, ?_, ?_⟩
        · intro c hc2
          obtain ⟨rr, hrr, hrc, hru⟩ := he c hc2
          exact ⟨rr, by rw [hep]; exact hrr, hrc, hru⟩
        · intro c hc2
          obtain ⟨rr, hrr, hrc, hru⟩ := hg c hc2
          exact ⟨rr, by rw [hgo]; exact hrr, hrc, hru⟩
        · intro c hc2
          obtain ⟨rr, hrr, hrc, hru⟩ := husl c hc2
          exact ⟨rr, by rw [hupf]; exact List.mem_append_left _ hrr, hrc, hru⟩
      · have hl2 : l' = { uid := owner_uid, email_password := none, github_oauth := none, username_password := some fresh_cid } := by simpa using hl
        subst hl2
        refine ⟨?_, ?_, ?_⟩
        · intro c hc2; simp at hc2
        · intro c hc2; simp at hc2
        · intro c hc2
          have hcc : fresh_cid = c := by simpa using hc2
          subst hcc
          refine ⟨r, ?_, ?_, ?_⟩
          · rw [hupf]; exact List.mem_append_right _ (List.mem_singleton_self _)
          · rw [hrcid]
          · rw [hruid]

/-- The boolean `has_multiple_credentials` measures the populated-slot count. -/
theorem has_multiple_iff (l : CredentialLookup) :
    l.has_multiple_credentials = true ↔ 2 ≤ slotCount l := by
  rcases l with ⟨u, e, g, p⟩
  cases e <;> cases g <;> cases p <;>
    simp [CredentialLookup.has_multiple_credentials, slotCount]

/-- A committed `EmailPassword::delete` on a stored row never takes a user
from at-least-one active credential to zero. -/
theorem delete_email_keeps_credential (self : EmailPassword) (db db' : Db)
    (hwf : WellFormed db) (hmem : self ∈ db.email_password_credentials)
    (h : self.delete db = (.ok (), db')) (u : Uuid)
    (hu : userHasCredential db u) : userHasCredential db' u := by
  obtain ⟨lk, hf, hm, hus, hcr, hep, hgo, hup⟩ := delete_email_ok_inv self db db' h
  obtain ⟨h1, h2, h3, h4, h5⟩ := hwf
  obtain ⟨l, hl, hlu, hcount⟩ := hu
  have hlkmem : lk ∈ db.credentials := List.mem_of_find?_eq_some hf
  have hlkuid : lk.uid = self.uid := by simpa using List.find?_some hf
  refine ⟨_, by rw [hcr]; exact List.mem_map_of_mem _ hl, ?_, ?_⟩
  · by_cases hb : (l.email_password == some self.cid) = true <;>
      simp only [hb, if_true, Bool.false_eq_true, if_false] <;> exact hlu
  · by_cases hb : (l.email_password == some self.cid) = true
    · rw [if_pos hb]
      have hslot : l.email_password = some self.cid := by simpa using hb
      obtain ⟨rr, hrr, hrc, hru⟩ := (h5 l hl).1 self.cid (by rw [Option.mem_def]; exact hslot)
      have hrr2 : rr = self := List.inj_on_of_nodup_map h2 hrr hmem hrc
      have hlself : l.uid = self.uid := by rw [← hru, hrr2]
      have hileq : l = lk := List.inj_on_of_nodup_map h1 hl hlkmem (by rw [hlself, hlkuid])
      have hm2 : 2 ≤ slotCount l := (has_multiple_iff l).mp (by rw [hileq]; exact hm)
      rcases l with ⟨lu, le, lg, lp⟩
      simp only at hslot
      subst hslot
      simp [slotCount] at hm2 ⊢
      omega
    · rw [if_neg hb]
      exact hcount

/-- A committed `UsernamePassword::delete` on a stored row never takes a user
from at-least-one active credential to zero. -/
theorem delete_username_keeps_credential (self : UsernamePassword) (db db' : Db)
    (hwf : WellFormed db) (hmem : self ∈ db.username_password_credentials)
    (h : self.delete db = (.ok (), db')) (u : Uuid)
    (hu : userHasCredential db u) : userHasCredential db' u := by
  obtain ⟨lk, hf, hm, hus, hcr, hupf, hgo, hep⟩ := delete_username_ok_inv self db db' h
  obtain ⟨h1, h2, h3, h4, h5⟩ := hwf
  obtain ⟨l, hl, hlu, hcount⟩ := hu
  have hlkmem : lk ∈ db.credentials := List.mem_of_find?_eq_some hf
  have hlkuid : lk.uid = self.uid := by simpa using List.find?_some hf
  refine ⟨_, by rw [hcr]; exact List.mem_map_of_mem _ hl, ?_, ?_⟩
  · by_cases hb : (l.username_password == some self.cid) = true <;>
      simp only [hb, if_true, Bool.false_eq_true, if_false] <;> exact hlu
  · by_cases hb : (l.username_password == some self.cid) = true
    · rw [if_pos hb]
      have hslot : l.username_password = some self.cid := by simpa using hb
      obtain ⟨rr, hrr, hrc, hru⟩ := (h5 l hl).2.2 self.cid (by rw [Option.mem_def]; exact hslot)
      have hrr2 : rr = self := List.inj_on_of_nodup_map h4 hrr hmem hrc
      have hlself : l.uid = self.uid := by rw [← hru, hrr2]
      have hileq : l = lk := List.inj_on_of_nodup_map h1 hl hlkmem (by rw [hlself, hlkuid])
      have hm2 : 2 ≤ slotCount l := (has_multiple_iff l).mp (by rw [hileq]; exact hm)
      rcases l with ⟨lu, le, lg, lp⟩
      simp only at hslot
      subst hslot
      simp [slotCount] at hm2 ⊢
      omega
    · rw [if_neg hb]
      exact hcount

/-- A committed `GithubOauth::delete` on a stored row never takes a user from
at-least-one active credential to zero. -/
theorem delete_github_keeps_credential (self : GithubOauth) (db db' : Db)
    (hwf : WellFormed db) (hmem : self ∈ db.github_oauth_credentials)
    (h : self.delete db = (.ok (), db')) (u : Uuid)
    (hu : userHasCredential db u) : userHasCredential db' u := by
  obtain ⟨lk, hf, hm, hus, hcr, hgof, hep, hup⟩ := delete_github_ok_inv self db db' h
  obtain ⟨h1, h2, h3, h4, h5⟩ := hwf
  obtain ⟨l, hl, hlu, hcount⟩ := hu
  have hlkmem : lk ∈ db.credentials := List.mem_of_find?_eq_some hf
  have hlkuid : lk.uid = self.uid := by simpa using List.find?_some hf
  refine ⟨_, by rw [hcr]; exact List.mem_map_of_mem _ hl, ?_, ?_⟩
  · by_cases hb : (l.github_oauth == some self.cid) = true <;>
      simp only [hb, if_true, Bool.false_eq_true, if_false] <;> exact hlu
  · by_cases hb : (l.github_oauth == some self.cid) = true
    · rw [if_pos hb]
      have hslot : l.github_oauth = some self.cid := by simpa using hb
      obtain ⟨rr, hrr, hrc, hru⟩ := (h5 l hl).2.1 self.cid (by rw [Option.mem_def]; exact hslot)
      have hrr2 : rr = self := List.inj_on_of_nodup_map h3 hrr hmem hrc
      have hlself : l.uid = self.uid := by rw [← hru, hrr2]
      have hileq : l = lk := List.inj_on_of_nodup_map h1 hl hlkmem (by rw [hlself, hlkuid])
      have hm2 : 2 ≤ slotCount l := (has_multiple_iff l).mp (by rw [hileq]; exact hm)
      rcases l with ⟨lu, le, lg, lp⟩
      simp only at hslot
      subst hslot
      simp [slotCount] at hm2 ⊢
      omega
    · rw [if_neg hb]
      exact hcount

/-- One committed delete step preserves well-formedness. -/
theorem deleteStep_wf (db db' : Db) (h : DeleteStep db db') (hwf : WellFormed db) :
    WellFormed db' := by
  cases h with
  | email self _ _ _ hdel => exact wf_delete_email self db db' hwf hdel
  | github self _ _ _ hdel => exact wf_delete_github self db db' hwf hdel
  | username self _ _ _ hdel => exact wf_delete_username self db db' hwf hdel

/-- One committed delete step never strands a user. -/
theorem deleteStep_keeps_credential (db db' : Db) (h : DeleteStep db db')
    (hwf : WellFormed db) (u : Uuid) (hu : userHasCredential db u) :
    userHasCredential db' u := by
  cases h with
  | email self _ _ hmem hdel =>
    exact delete_email_keeps_credential self db db' hwf hmem hdel u hu
  | github self _ _ hmem hdel =>
    exact delete_github_keeps_credential self db db' hwf hmem hdel u hu
  | username self _ _ hmem hdel =>
    exact delete_username_keeps_credential self db db' hwf hmem hdel u hu

/-- Any committed associate or delete step preserves well-formedness. -/
theorem authStep_wf (db db' : Db) (h : AuthStep db db') (hwf : WellFormed db) :
    WellFormed db' := by
  cases h with
  | assoc_email p u c now _ _ r hk => exact wf_assoc_email p db u c now r db' hwf hk
  | assoc_github p u c now _ _ r hk => exact wf_assoc_github p db u c now r db' hwf hk
  | assoc_username p u c now _ _ r hk => exact wf_assoc_username p db u c now r db' hwf hk
  | del _ _ hd => exact deleteStep_wf db db' hd hwf

/-- Well-formedness is preserved along any sequence of committed associate
and delete transactions. -/
theorem authSteps_wf (db db' : Db) (h : Relation.ReflTransGen AuthStep db db')
    (hwf : WellFormed db) : WellFormed db' := by
  induction h with
  | refl => exact hwf
  | tail hab hbc ih => exact authStep_wf _ _ hbc ih

/-- Along any sequence of committed deletes, well-formedness is preserved and
no user drops from at-least-one active credential to zero. -/
theorem deleteSteps_keep_credential (db db' : Db)
    (h : Relation.ReflTransGen DeleteStep db db') (hwf : WellFormed db) :
    WellFormed db' ∧ ∀ u, userHasCredential db u → userHasCredential db' u := by
  induction h with
  | refl => exact ⟨hwf, fun _ hu => hu⟩
  | tail hab hbc ih =>
    obtain ⟨hwfb, hpres⟩ := ih
    exact ⟨deleteStep_wf _ _ hbc hwfb,
      fun u hu => deleteStep_keeps_credential _ _ hbc hwfb u (hpres u hu)⟩

/-- Claim C1: for every credential variant, `delete` fails with
`CredentialCannotDelete` whenever the owner's CredentialLookup row exists but
does not have at least two populated slots, and that failing transaction
changes nothing; consequently no sequence of committed delete operations on
stored credentials ever reduces a user's active-credential count to zero. -/
theorem claim1_no_stranded_user (db : Db) (hwf : WellFormed db) :
    ((∀ (self : EmailPassword) (l : CredentialLookup),
        CredentialLookup.get_by_uid db self.uid = .ok l →
        l.has_multiple_credentials = false →
        self.delete db = (.error .CredentialCannotDelete, db))
      ∧ (∀ (self : GithubOauth) (l : CredentialLookup),
        CredentialLookup.get_by_uid db self.uid = .ok l →
        l.has_multiple_credentials = false →
        self.delete db = (.error .CredentialCannotDelete, db))
      ∧ (∀ (self : UsernamePassword) (l : CredentialLookup),
        CredentialLookup.get_by_uid db self.uid = .ok l →
        l.has_multiple_credentials = false →
        self.delete db = (.error .CredentialCannotDelete, db)))
    ∧ (∀ db', Relation.ReflTransGen DeleteStep db db' →
        ∀ u, userHasCredential db u → userHasCredential db' u) := by
  refine ⟨⟨?_, ?_, ?_⟩, ?_⟩
  · intro self l hget hm
    unfold EmailPassword.delete
    rw [hget]
    simp [hm]
  · intro self l hget hm
    unfold GithubOauth.delete
    rw [hget]
    simp [hm]
  · intro self l hget hm
    unfold UsernamePassword.delete
    rw [hget]
    simp [hm]
  · intro db' hsteps u hu
    exact (deleteSteps_keep_credential db db' hsteps hwf).2 u hu

/-- Claim C1 theorem, instantiated: deleting user 1's only credential fails
with `CredentialCannotDelete` and leaves the database unchanged. -/
theorem claim1_no_stranded_user_witness :
    EmailPassword.delete c6Row c6Db = (.error .CredentialCannotDelete, c6Db) :=
  (claim1_no_stranded_user c6Db (by decide)).1.1 c6Row
    { uid := 1, email_password := some 10, github_oauth := none, username_password := none }
    rfl rfl

/-- Claim C2 counterexample: an `associate` over an already-populated slot
commits a state in which the previously linked credential row still exists,
is not disabled, and is referenced by zero lookup slots — falsifying the
claim's "every active credential row is referenced by exactly one lookup
entry" direction. -/
theorem claim2_counterexample :
    PartialEmailPassword.associate { email := "b@c.com", password := "pw2" } c6Db 1 11 5
      = (.ok c2NewRow, c2PostDb)
    ∧ c6Row ∈ c2PostDb.email_password_credentials
    ∧ c6Row.disabled = false
    ∧ referenceCount c2PostDb CredKind.email_password c6Row.cid = 0 :=
  ⟨rfl, by decide, rfl, rfl⟩

/-- Claim C2 (amended): along every sequence of committed associate and
delete transactions from a well-formed state, each non-null CredentialLookup
slot points to a credential row that exists in the table of the matching
kind and is owned by that lookup row's user. (The converse — every stored
active row reachable from a slot — does not hold: associate over a populated
slot leaves the previous row stored but unreferenced.) -/
theorem claim2_slot_consistency (db db' : Db) (hwf : WellFormed db)
    (h : Relation.ReflTransGen AuthStep db db') :
    ∀ l ∈ db'.credentials, slotConsistent db' l :=
  (authSteps_wf db db' h hwf).2.2.2.2

/-- Claim C2 amended theorem, instantiated after one committed associate on
the single lookup row of the resulting database. -/
theorem claim2_slot_consistency_witness :
    slotConsistent c2PostDb
      { uid := 1, email_password := some 11, github_oauth := none,
        username_password := none } :=
  claim2_slot_consistency c6Db c2PostDb (by decide)
    (Relation.ReflTransGen.single
      (AuthStep.assoc_email { email := "b@c.com", password := "pw2" } 1 11 5 c6Db c2PostDb
        c2NewRow rfl))
    { uid := 1, email_password := some 11, github_oauth := none, username_password := none }
    (by decide)

/-- Claim C7 counterexample: with user 1's `github_oauth` slot already
populated (cid 12), the GitHub callback associate arm succeeds instead of
failing with `CredentialAssociated`, and it changes the database: the slot is
overwritten with the new cid 13, leaving row 12 unreferenced. -/
theorem claim7_counterexample :
    ({ uid := 1, email_password := none, github_oauth := some 12,
       username_password := none } : CredentialLookup) ∈ c7Db.credentials
    ∧ routeGithubCallbackAssociate c7Db (some { uid := 1 })
        { provider_id := 43, username := "bob" } 13 5 = (.ok (), c7PostDb)
    ∧ referenceCount c7PostDb CredKind.github_oauth 12 = 0 :=
  ⟨by decide, rfl, rfl⟩

/-- Claim C7 (amended): the EmailPassword and UsernamePassword associate
endpoints fail with `CredentialAssociated` and change nothing when the
authenticated user's slot of that kind is populated, and succeed when it is
empty, leaving every other slot of every lookup row with its previous value;
the GitHub callback associate arm performs no such already-associated check
(see the counterexample). -/
theorem claim7_associate_exclusive :
    (∀ (db : Db) (user : User) (request : PartialEmailPassword) (cid : Uuid)
      (now : Timestamp) (lk : CredentialLookup), user.credentials db = .ok lk →
      ((∀ c, lk.email_password = some c →
        routeEmailPasswordAssociate db user request cid now
          = (.error .CredentialAssociated, db))
      ∧ (lk.email_password = none → ∀ r db',
          request.associate db user.uid cid now = (.ok r, db') →
          routeEmailPasswordAssociate db user request cid now = (.ok (), db')
          ∧ ∀ l ∈ db.credentials, ∃ l' ∈ db'.credentials, l'.uid = l.uid
              ∧ l'.github_oauth = l.github_oauth
              ∧ l'.username_password = l.username_password)))
    ∧ (∀ (db : Db) (user : User) (request : PartialUsernamePassword) (cid : Uuid)
      (now : Timestamp) (lk : CredentialLookup), user.credentials db = .ok lk →
      ((∀ c, lk.username_password = some c →
        routeUsernamePasswordAssociate db user request cid now
          = (.error .CredentialAssociated, db))
      ∧ (lk.username_password = none → ∀ r db',
          request.associate db user.uid cid now = (.ok r, db') →
          routeUsernamePasswordAssociate db user request cid now = (.ok (), db')
          ∧ ∀ l ∈ db.credentials, ∃ l' ∈ db'.credentials, l'.uid = l.uid
              ∧ l'.email_password = l.email_password
              ∧ l'.github_oauth = l.github_oauth))) := by
  constructor
  · intro db user request cid now lk hlk
    constructor
    · intro c hslot
      unfold routeEmailPasswordAssociate
      rw [hlk]
      simp [hslot]
    · intro hslot r db' hassoc
      constructor
      · unfold routeEmailPasswordAssociate
        rw [hlk]
        simp [hslot, hassoc]
      · obtain ⟨hr, hany, hus, hep, hgo, hup, hcred⟩ :=
          assoc_email_ok_inv request db user.uid cid now r db' hassoc
        intro l hl
        rcases hcred with ⟨hu2, hc⟩ | ⟨hu2, hc⟩
        · refine ⟨(if (l.uid == user.uid) = true
              then { l with email_password := some cid } else l),
            by rw [hc]; exact List.mem_map_of_mem _ hl, ?_, ?_, ?_⟩ <;>
            by_cases hb : (l.uid == user.uid) = true <;> simp [hb]
        · exact ⟨l, by rw [hc]; exact List.mem_append_left _ hl, rfl, rfl, rfl⟩
  · intro db user request cid now lk hlk
    constructor
    · intro c hslot
      unfold routeUsernamePasswordAssociate
      rw [hlk]
      simp [hslot]
    · intro hslot r db' hassoc
      constructor
      · unfold routeUsernamePasswordAssociate
        rw [hlk]
        simp [hslot, hassoc]
      · obtain ⟨hr, hany, hus, hupf, hep, hgo, hcred⟩ :=
          assoc_username_ok_inv request db user.uid cid now r db' hassoc
        intro l hl
        rcases hcred with ⟨hu2, hc⟩ | ⟨hu2, hc⟩
        · refine ⟨(if (l.uid == user.uid) = true
              then { l with username_password := some cid } else l),
            by rw [hc]; exact List.mem_map_of_mem _ hl, ?_, ?_, ?_⟩ <;>
            by_cases hb : (l.uid == user.uid) = true <;> simp [hb]
        · exact ⟨l, by rw [hc]; exact List.mem_append_left _ hl, rfl, rfl, rfl⟩

/-- Claim C7 amended theorem, instantiated: the email associate endpoint on a
user whose email slot is populated fails with `CredentialAssociated` and
leaves the database unchanged. -/
theorem claim7_associate_exclusive_witness :
    routeEmailPasswordAssociate c8Db { uid := 1 } { email := "x@y.zz", password := "pw" } 99 9
      = (.error .CredentialAssociated, c8Db) :=
  (claim7_associate_exclusive.1 c8Db { uid := 1 } { email := "x@y.zz", password := "pw" } 99 9
    { uid := 1, email_password := some 10, github_oauth := none, username_password := some 11 }
    rfl).1 10 rfl

/-- Claim C10: for every credential variant, a successful delete touches only
its own credential table (removing the rows with the deleted cid) and, on the
lookup table, nulls exactly the slots of the matching kind whose value equals
the deleted credential's cid: row for row, the uid and the slots of the other
kinds keep their previous values, a matching slot holding a different id is
unchanged, and no lookup row is removed. -/
theorem claim10_delete_frame :
    (∀ (self : EmailPassword) (db db' : Db), self.delete db = (.ok (), db') →
      db'.users = db.users
      ∧ db'.github_oauth_credentials = db.github_oauth_credentials
      ∧ db'.username_password_credentials = db.username_password_credentials
      ∧ List.Forall₂ (fun l l' => l'.uid = l.uid
          ∧ l'.github_oauth = l.github_oauth
          ∧ l'.username_password = l.username_password
          ∧ (l.email_password = some self.cid → l'.email_password = none)
          ∧ (l.email_password ≠ some self.cid → l'.email_password = l.email_password))
          db.credentials db'.credentials)
    ∧ (∀ (self : GithubOauth) (db db' : Db), self.delete db = (.ok (), db') →
      db'.users = db.users
      ∧ db'.email_password_credentials = db.email_password_credentials
      ∧ db'.username_password_credentials = db.username_password_credentials
      ∧ List.Forall₂ (fun l l' => l'.uid = l.uid
          ∧ l'.email_password = l.email_password
          ∧ l'.username_password = l.username_password
          ∧ (l.github_oauth = some self.cid → l'.github_oauth = none)
          ∧ (l.github_oauth ≠ some self.cid → l'.github_oauth = l.github_oauth))
          db.credentials db'.credentials)
    ∧ (∀ (self : UsernamePassword) (db db' : Db), self.delete db = (.ok (), db') →
      db'.users = db.users
      ∧ db'.email_password_credentials = db.email_password_credentials
      ∧ db'.github_oauth_credentials = db.github_oauth_credentials
      ∧ List.Forall₂ (fun l l' => l'.uid = l.uid
          ∧ l'.email_password = l.email_password
          ∧ l'.github_oauth = l.github_oauth
          ∧ (l.username_password = some self.cid → l'.username_password = none)
          ∧ (l.username_password ≠ some self.cid →
              l'.username_password = l.username_password))
          db.credentials db'.credentials) := by
  refine ⟨?_, ?_, ?_⟩
  · intro self db db' h
    obtain ⟨lk, hf, hm, hus, hcr, hep, hgo, hup⟩ := delete_email_ok_inv self db db' h
    refine ⟨hus, hgo, hup, ?_⟩
    rw [hcr]
    apply forall2_map_self
    intro l _
    by_cases hb : (l.email_password == some self.cid) = true
    · rw [if_pos hb]
      have hslot : l.email_password = some self.cid := by simpa using hb
      exact ⟨rfl, rfl, rfl, fun _ => rfl, fun hne => absurd hslot hne⟩
    · rw [if_neg hb]
      have hslot : l.email_password ≠ some self.cid := by simpa using hb
      exact ⟨rfl, rfl, rfl, fun hcontr => absurd hcontr hslot, fun _ => rfl⟩
  · intro self db db' h
    obtain ⟨lk, hf, hm, hus, hcr, hgof, hep, hup⟩ := delete_github_ok_inv self db db' h
    refine ⟨hus, hep, hup, ?_⟩
    rw [hcr]
    apply forall2_map_self
    intro l _
    by_cases hb : (l.github_oauth == some self.cid) = true
    · rw [if_pos hb]
      have hslot : l.github_oauth = some self.cid := by simpa using hb
      exact ⟨rfl, rfl, rfl, fun _ => rfl, fun hne => absurd hslot hne⟩
    · rw [if_neg hb]
      have hslot : l.github_oauth ≠ some self.cid := by simpa using hb
      exact ⟨rfl, rfl, rfl, fun hcontr => absurd hcontr hslot, fun _ => rfl⟩
  · intro self db db' h
    obtain ⟨lk, hf, hm, hus, hcr, hupf, hgo, hep⟩ := delete_username_ok_inv self db db' h
    refine ⟨hus, hep, hgo, ?_⟩
    rw [hcr]
    apply forall2_map_self
    intro l _
    by_cases hb : (l.username_password == some self.cid) = true
    · rw [if_pos hb]
      have hslot : l.username_password = some self.cid := by simpa using hb
      exact ⟨rfl, rfl, rfl, fun _ => rfl, fun hne => absurd hslot hne⟩
    · rw [if_neg hb]
      have hslot : l.username_password ≠ some self.cid := by simpa using hb
      exact ⟨rfl, rfl, rfl, fun hcontr => absurd hcontr hslot, fun _ => rfl⟩

/-- Claim C10 theorem, instantiated: deleting user 1's email credential from
`c10Db` keeps the users and other credential tables, keeps the lookup row,
nulls only the email slot and preserves the GitHub slot. -/
theorem claim10_delete_frame_witness :
    c10PostDb.users = c10Db.users
    ∧ c10PostDb.github_oauth_credentials = c10Db.github_oauth_credentials
    ∧ c10PostDb.username_password_credentials = c10Db.username_password_credentials
    ∧ List.Forall₂ (fun l l' => l'.uid = l.uid
        ∧ l'.github_oauth = l.github_oauth
        ∧ l'.username_password = l.username_password
        ∧ (l.email_password = some c6Row.cid → l'.email_password = none)
        ∧ (l.email_password ≠ some c6Row.cid → l'.email_password = l.email_password))
        c10Db.credentials c10PostDb.credentials :=
  claim10_delete_frame.1 c6Row c10Db c10PostDb rfl

end Overslight
